import Mathlib

set_option linter.unusedVariables false

/-!
Shallow embedding of `src/src/libs/SidebarUtils.ts`.

The two functions of interest are `getOrderedReportIDs` (lines 69-201) and
`getOptionData` (lines 206-458).  Both call a number of collaborators that
live in other modules of the repository (`ReportUtils`, `OptionsListUtils`,
`DraftCommentUtils`, `LocaleCompare`, ...).  Those modules are external to
the reviewed source, so every such call is embedded as an opaque function
supplied through an environment record (`OrderEnv` / `OptionEnv`); the
theorems quantify over all environments.  Arguments of a collaborator call
that are fixed for the whole invocation (betas, policies, the action
collection, the translated locale strings, ...) are captured inside the
environment function, mirroring how the TypeScript closes over them.

JavaScript truthiness is modelled explicitly: a missing or empty string is
falsy (`truthyStr`), a missing or zero number is falsy (`truthyNat`), and
`Array.prototype.sort` is modelled by a stable insertion sort `sortCmp`
over an integer-valued comparator, matching the stable sort required by
the ECMAScript specification.
-/

/-- The slice of an Onyx `Report` record read by `SidebarUtils.ts`.
Optional TypeScript fields become `Option`; optional booleans are collapsed
to `Bool` (JS truthiness of `undefined` and `false` coincide at every use
site in this file). -/
structure Report where
  reportID : Option String := none
  isPinned : Bool := false
  notificationPreference : Option String := none
  lastVisibleActionCreated : Option String := none
  parentReportID : Option String := none
  parentReportActionID : Option String := none
  lastActorAccountID : Option Nat := none
  ownerAccountID : Option Nat := none
  managerID : Option Nat := none
  policyID : Option String := none
  iouReportID : Option String := none
  stateNum : Option Nat := none
  statusNum : Option Nat := none
  hasOutstandingChildRequest : Bool := false
  hasOutstandingChildTask : Bool := false
  hasParentAccess : Option Bool := none
  isWaitingOnBankAccount : Bool := false
  chatType : Option String := none
  isDeletedParentAction : Bool := false
  pendingAddWorkspaceRoom : Option String := none
  pendingCreateChat : Option String := none
  type : Option String := none
  deriving Repr, DecidableEq

/-- JS truthiness of an optional string (`undefined` and `''` are falsy). -/
def truthyStr : Option String → Bool
  | none => false
  | some s => !(s == "")

/-- JS truthiness of an optional number (`undefined` and `0` are falsy). -/
def truthyNat : Option Nat → Bool
  | none => false
  | some n => !(n == 0)

/-- External collaborators called by `getOrderedReportIDs`.  Each field
embeds one call site; per-invocation-constant arguments (betas, policies,
`allReportActions`, `transactionViolations`, member id lists, translated
strings) are captured inside the function. -/
structure OrderEnv where
  /-- Embeds `OptionsListUtils.shouldShowViolations(report, betas, transactionViolations)` (line 91). -/
  shouldShowViolations : Report → Bool
  /-- first elements (`error?.[0]`) of
  `Object.values(OptionsListUtils.getAllReportErrors(report, reportActions) ?? {})` (line 94). -/
  getAllReportErrors : Report → List (Option String)
  /-- Embeds `Localize.translateLocal('iou.error.genericSmartscanFailureMessage')` (line 96). -/
  genericSmartscanFailureMessage : String
  /-- Embeds `ReportUtils.isOneTransactionThread(report.reportID, report.parentReportID ?? '0')` (line 97). -/
  isOneTransactionThread : Option String → String → Bool
  /-- Embeds `ReportUtils.isSystemChat(report)` (line 107). -/
  isSystemChat : Report → Bool
  /-- Embeds `ReportUtils.shouldReportBeInOptionList({report, currentReportId, isInFocusMode, betas,
  policies, excludeEmptyChats: true, doesReportHaveViolations, includeSelfDM: true})`
  (lines 113-123); the two varying arguments are passed explicitly. -/
  shouldReportBeInOptionList : Report → Bool → Bool → Bool
  /-- Embeds `ReportUtils.doesReportBelongToWorkspace(report, policyMemberAccountIDs, currentPolicyID)` (line 147). -/
  doesReportBelongToWorkspace : Report → Bool
  /-- Embeds `ReportUtils.requiresAttentionFromCurrentUser(report, reportAction)` where `reportAction`
  is `ReportActionsUtils.getReportAction(report?.parentReportID ?? '-1',
  report?.parentReportActionID ?? '-1')` (lines 160-161). -/
  requiresAttentionFromCurrentUser : Report → Bool
  /-- Embeds `hasValidDraftComment(report?.reportID ?? '-1')` (line 163). -/
  hasValidDraftComment : String → Bool
  /-- Embeds `ReportUtils.isArchivedRoom(report)` (line 165). -/
  isArchivedRoom : Report → Bool
  /-- Embeds `ReportUtils.getReportName(report)` (line 155). -/
  getReportName : Report → String
  /-- Embeds `localeCompare(a, b)` (lines 175-192). -/
  localeCompare : String → String → Int

/-- The scalar arguments of `getOrderedReportIDs` (lines 70-78). -/
structure OrderConfig where
  currentReportId : Option String := none
  priorityMode : Option String := none
  currentPolicyID : String := ""
  policyMemberAccountIDs : List Nat := []

/-- Embeds `priorityMode === CONST.PRIORITY_MODE.GSD` (line 80). -/
def isInFocusMode (cfg : OrderConfig) : Bool :=
  cfg.priorityMode == some "gsd"

/-- Lines 95-96: violations, or some report error whose first message is not
the benign smartscan-failure translation. -/
def hasErrorsOtherThanFailedReceipt (env : OrderEnv) (r : Report) : Bool :=
  env.shouldShowViolations r
    || (env.getAllReportErrors r).any (fun e => e != some env.genericSmartscanFailureMessage)

/-- Embeds `report.reportID === currentReportId` (line 93); strict equality of a
possibly-undefined string with a possibly-null string. -/
def isFocusedReport (cfg : OrderConfig) (r : Report) : Bool :=
  match r.reportID, cfg.currentReportId with
  | some a, some b => a == b
  | _, _ => false

/-- A surviving report together with the `hasErrorsOtherThanFailedReceipt`
flag spread onto it at line 101-104 (absent, hence falsy, on the reports
pushed at line 125). -/
structure DisplayReport where
  report : Report
  hasErrorsOtherThanFailedReceipt : Bool
  deriving Repr, DecidableEq

/-- The body of the `allReportsDictValues.forEach` filter (lines 86-127),
as a per-report decision: `none` means the report is dropped. -/
def filterStep (env : OrderEnv) (cfg : OrderConfig) (r : Report) : Option DisplayReport :=
  if env.isOneTransactionThread r.reportID (r.parentReportID.getD "0") then
    none
  else if hasErrorsOtherThanFailedReceipt env r then
    some ⟨r, true⟩
  else if r.notificationPreference == some "hidden"
      && !(hasErrorsOtherThanFailedReceipt env r || isFocusedReport cfg r
            || env.isSystemChat r || r.isPinned) then
    none
  else if env.shouldReportBeInOptionList r (isInFocusMode cfg) (env.shouldShowViolations r) then
    some ⟨r, false⟩
  else
    none

/-- Lines 82-149: run the filter over `Object.values(allReports ?? {})`
(null collection entries are skipped, line 87-89), then apply the optional
workspace restriction (lines 145-149). -/
def reportsToDisplay (env : OrderEnv) (cfg : OrderConfig)
    (rs : List (Option Report)) : List DisplayReport :=
  if cfg.currentPolicyID != "" || !cfg.policyMemberAccountIDs.isEmpty then
    (rs.filterMap (fun o => o.bind (filterStep env cfg))).filter
      (fun d => isFocusedReport cfg d.report || env.doesReportBelongToWorkspace d.report)
  else
    rs.filterMap (fun o => o.bind (filterStep env cfg))

/-- Lines 60-64. -/
structure MiniReport where
  reportID : Option String
  displayName : String
  lastVisibleActionCreated : Option String
  deriving Repr, DecidableEq

/-- Lines 153-157. -/
def miniOf (env : OrderEnv) (d : DisplayReport) : MiniReport :=
  ⟨d.report.reportID, env.getReportName d.report, d.report.lastVisibleActionCreated⟩

/-- The five LHN groups (lines 139-143). -/
inductive Bucket
  | pinnedGBR
  | drafts
  | archivedB
  | errorsB
  | defaultB
  deriving Repr, DecidableEq

/-- Bucket membership, written after the claimed priority order: pinned or
requires-attention, else unresolved draft comment, else archived, else the
forced-visible error flag, else default.  Used as the specification side of
the refinement against the `forEach` chain of lines 151-172. -/
def classifySpec (env : OrderEnv) (d : DisplayReport) : Bucket :=
  if d.report.isPinned || env.requiresAttentionFromCurrentUser d.report then
    .pinnedGBR
  else if env.hasValidDraftComment (d.report.reportID.getD "-1") then
    .drafts
  else if env.isArchivedRoom d.report then
    .archivedB
  else if d.hasErrorsOtherThanFailedReceipt then
    .errorsB
  else
    .defaultB

/-- The five accumulator arrays of lines 139-143. -/
structure Buckets where
  pinnedAndGBRReports : List MiniReport
  draftReports : List MiniReport
  nonArchivedReports : List MiniReport
  archivedReports : List MiniReport
  errorReports : List MiniReport
  deriving Repr, DecidableEq

/-- The `reportsToDisplay.forEach` of lines 151-172: each surviving report
is pushed (in traversal order) onto exactly one of the five arrays by the
if/else-if chain of lines 161-171. -/
def bucketsOf (env : OrderEnv) : List DisplayReport → Buckets
  | [] => ⟨[], [], [], [], []⟩
  | d :: rest =>
    let B := bucketsOf env rest
    if d.report.isPinned || env.requiresAttentionFromCurrentUser d.report then
      { B with pinnedAndGBRReports := miniOf env d :: B.pinnedAndGBRReports }
    else if env.hasValidDraftComment (d.report.reportID.getD "-1") then
      { B with draftReports := miniOf env d :: B.draftReports }
    else if env.isArchivedRoom d.report then
      { B with archivedReports := miniOf env d :: B.archivedReports }
    else if d.hasErrorsOtherThanFailedReceipt then
      { B with errorReports := miniOf env d :: B.errorReports }
    else
      { B with nonArchivedReports := miniOf env d :: B.nonArchivedReports }

/-- Lexicographic comparison of character lists: the order JavaScript's
`<` induces on strings (code-unit by code-unit, shorter prefix first). -/
def charListLt : List Char → List Char → Bool
  | [], [] => false
  | [], _ :: _ => true
  | _ :: _, [] => false
  | a :: as, b :: bs => if a < b then true else if b < a then false else charListLt as bs

/-- JavaScript `a < b` on strings. -/
def strLt (a b : String) : Bool :=
  charListLt a.data b.data

/-- Lines 46-54. -/
def compareStringDates (a b : String) : Int :=
  if strLt a b then -1 else if strLt b a then 1 else 0

/-- The display-name comparator used on every bucket
(`a?.displayName && b?.displayName ? localeCompare(...) : 0`,
lines 175-177, 185, 191-192). -/
def nameCmp (env : OrderEnv) (a b : MiniReport) : Int :=
  if !(a.displayName == "") && !(b.displayName == "") then
    env.localeCompare a.displayName b.displayName
  else 0

/-- The timestamp comparator
(`a?.lastVisibleActionCreated && b?.lastVisibleActionCreated ?
compareStringDates(b.lastVisibleActionCreated, a.lastVisibleActionCreated) : 0`,
lines 181, 189): descending, and a no-op when either side is falsy. -/
def dateCmpDesc (a b : MiniReport) : Int :=
  if truthyStr a.lastVisibleActionCreated && truthyStr b.lastVisibleActionCreated then
    compareStringDates (b.lastVisibleActionCreated.getD "") (a.lastVisibleActionCreated.getD "")
  else 0

/-- The default-mode comparator for the non-archived bucket
(lines 180-187): timestamp descending, then display name. -/
def defaultModeCmp (env : OrderEnv) (a b : MiniReport) : Int :=
  if dateCmpDesc a b != 0 then dateCmpDesc a b else nameCmp env a b

/-- Insert `x` in front of the first element that is not strictly smaller;
keeps `x` before elements that compare equal, since `x` originated earlier
in the traversal. -/
def insCmp (cmp : α → α → Int) (x : α) : List α → List α
  | [] => [x]
  | y :: ys => if cmp x y ≤ 0 then x :: y :: ys else y :: insCmp cmp x ys

/-- Stable sort by an integer comparator: the model of
`Array.prototype.sort(cmp)`. -/
def sortCmp (cmp : α → α → Int) : List α → List α
  | [] => []
  | x :: xs => insCmp cmp x (sortCmp cmp xs)

/-- Line 175. -/
def sortedPinned (env : OrderEnv) (cfg : OrderConfig) (rs : List (Option Report)) : List MiniReport :=
  sortCmp (nameCmp env) (bucketsOf env (reportsToDisplay env cfg rs)).pinnedAndGBRReports

/-- Line 176. -/
def sortedErrors (env : OrderEnv) (cfg : OrderConfig) (rs : List (Option Report)) : List MiniReport :=
  sortCmp (nameCmp env) (bucketsOf env (reportsToDisplay env cfg rs)).errorReports

/-- Line 177. -/
def sortedDrafts (env : OrderEnv) (cfg : OrderConfig) (rs : List (Option Report)) : List MiniReport :=
  sortCmp (nameCmp env) (bucketsOf env (reportsToDisplay env cfg rs)).draftReports

/-- Lines 179-193, non-archived group. -/
def sortedNonArchived (env : OrderEnv) (cfg : OrderConfig) (rs : List (Option Report)) : List MiniReport :=
  if isInFocusMode cfg then
    sortCmp (nameCmp env) (bucketsOf env (reportsToDisplay env cfg rs)).nonArchivedReports
  else
    sortCmp (defaultModeCmp env) (bucketsOf env (reportsToDisplay env cfg rs)).nonArchivedReports

/-- Lines 179-193, archived group.  Note that in default mode the archived
comparator is `dateCmpDesc` alone: no display-name tie-break (line 189). -/
def sortedArchived (env : OrderEnv) (cfg : OrderConfig) (rs : List (Option Report)) : List MiniReport :=
  if isInFocusMode cfg then
    sortCmp (nameCmp env) (bucketsOf env (reportsToDisplay env cfg rs)).archivedReports
  else
    sortCmp dateCmpDesc (bucketsOf env (reportsToDisplay env cfg rs)).archivedReports

/-- Embeds `report?.reportID ?? '-1'` (line 198). -/
def idOfMini (m : MiniReport) : String :=
  m.reportID.getD "-1"

/-- Lines 69-201: the full pipeline; flattening order is pinned/GBR,
errors, drafts, non-archived, archived (line 198). -/
def getOrderedReportIDs (env : OrderEnv) (cfg : OrderConfig)
    (rs : List (Option Report)) : List String :=
  (sortedPinned env cfg rs ++ sortedErrors env cfg rs ++ sortedDrafts env cfg rs
    ++ sortedNonArchived env cfg rs ++ sortedArchived env cfg rs).map idOfMini

/-- The slice of a `PersonalDetails` record read by `getOptionData`. -/
structure PersonalDetail where
  accountID : Option Nat := none
  login : Option String := none
  displayName : Option String := none
  pronouns : Option String := none
  phoneNumber : Option String := none
  avatar : Option String := none
  status : Option String := none
  deriving Repr, DecidableEq

/-- Embeds `OnyxEntry<PersonalDetailsList>`: account id keyed details. -/
abbrev PersonalDetailsList := List (Nat × PersonalDetail)

/-- The slice of a `ReportAction` read through this file's call sites. -/
structure ReportAction where
  actionName : Option String := none
  pendingAction : Option String := none
  deriving Repr, DecidableEq

/-- Embeds `OnyxEntry<ReportActions>`: action id keyed actions. -/
abbrev ReportActions := List (String × ReportAction)

/-- Opaque policy record; `getOptionData` only forwards it to collaborators. -/
structure Policy where
  name : Option String := none
  deriving Repr, DecidableEq

/-- One entry of the `displayNamesWithTooltips` list. -/
structure DisplayNameWithTooltip where
  displayName : Option String
  pronouns : Option String
  deriving Repr, DecidableEq

/-- Modelled from the spec: `ReportUtils.getDisplayNamesWithTooltips` is not
under `src/`; per the spec ("Derive display-name tooltips for at most the
first 10 participants") it derives one display-name tooltip per personal
detail it is given, so it is embedded as a per-entry projection of the
supplied participant list. -/
def getDisplayNamesWithTooltips (details : List PersonalDetail)
    (hasMultipleParticipants : Bool) (isSelfDM : Bool) : List DisplayNameWithTooltip :=
  details.map (fun d => ⟨d.displayName, d.pronouns⟩)

/-- External collaborators called by `getOptionData` (lines 206-458).  Each
field embeds one call site, with per-invocation-constant arguments captured
inside the function. -/
structure OptionEnv where
  /-- Embeds `OptionsListUtils.getAllReportErrors(report, reportActions)` (line 233),
  as the list of `error?.[0]` values; `[]` stands for no errors. -/
  getAllReportErrors : Report → Option ReportActions → List (Option String)
  /-- The translated `'iou.error.genericSmartscanFailureMessage'` string.
  The ordering filter treats an error equal to it as benign;
  `getOptionData` itself never consults it — its error indicator
  (line 267, line 280) counts every error. -/
  genericSmartscanFailureMessage : String
  /-- Embeds `ReportUtils.getParticipantsAccountIDsForDisplay(report)` /
  `(report, true)` (lines 262-263); the flag selects visible-only. -/
  getParticipantsAccountIDsForDisplay : Report → Bool → List Nat
  /-- Embeds `Object.values(OptionsListUtils.getPersonalDetailsForAccountIDs(ids, personalDetails))`
  (line 265). -/
  getPersonalDetailsForAccountIDs : List Nat → PersonalDetailsList → List PersonalDetail
  isChatThread : Report → Bool
  isChatRoom : Report → Bool
  isTaskReport : Report → Bool
  isInvoiceReport : Report → Bool
  isArchivedRoom : Report → Bool
  isPolicyExpenseChat : Report → Bool
  isExpenseRequest : Report → Bool
  isMoneyRequestReport : Report → Bool
  shouldReportShowSubscript : Report → Bool
  isUnread : Report → Bool
  isUnreadWithMention : Report → Bool
  canUserPerformWriteAction : Report → Bool
  isSelfDM : Report → Bool
  isExpenseReport : Report → Bool
  isJoinRequestInAdminRoom : Report → Bool
  /-- Embeds `ReportUtils.isIOUOwnedByCurrentUser(result as Report)` (line 428); the
  cast reads only report fields previously copied verbatim from `report`,
  so it is embedded as a function of the report. -/
  isIOUOwnedByCurrentUser : Report → Bool
  /-- Embeds `ReportUtils.getReportParticipantsTitle(visibleParticipantAccountIDs)` (line 302). -/
  getReportParticipantsTitle : List Nat → String
  /-- Embeds `ReportUtils.getChatRoomSubtitle(report)` (line 307). -/
  getChatRoomSubtitle : Report → Option String
  /-- Embeds `ReportUtils.getReportName(report, policy)` (line 442). -/
  getReportName : Report → Option Policy → String
  /-- Embeds `ReportUtils.getIcons(report, personalDetails, avatar, login, accountID, policy)`
  (line 448), with an opaque token representation for the icon list. -/
  getIcons : Report → PersonalDetailsList → Option String → Option String → Option Nat →
    Option Policy → List String
  /-- Embeds `OptionsListUtils.getSearchText(report, reportName, participantPersonalDetailList,
  isChatRoom || isPolicyExpenseChat, isThread)` (line 449). -/
  getSearchText : Report → String → List PersonalDetail → Bool → Bool → String
  /-- Abstraction of the `alternateText` derivation (lines 306-426): a pure
  composition of localization, message-formatting and last-action lookups,
  all of which are external collaborators or the module-level side index of
  visible actions; none of the reviewed claims concerns its value. -/
  computeAlternateText : Report → Option ReportActions → String → Option Policy → Option String

/-- The named arguments of `getOptionData` (lines 206-222). -/
structure OptionArgs where
  report : Option Report
  reportActions : Option ReportActions
  personalDetails : Option PersonalDetailsList
  preferredLocale : String := "en"
  policy : Option Policy := none
  parentReportAction : Option ReportAction := none
  hasViolations : Bool

/-- The `OptionData` view-model record, restricted to the fields this file
assigns (lines 230-260 initialisation and subsequent assignments). -/
structure OptionData where
  text : String
  alternateText : Option String
  allReportErrors : List (Option String)
  brickRoadIndicator : Option String
  tooltipText : Option String
  subtitle : Option String
  login : Option String
  accountID : Option Nat
  reportID : Option String
  phoneNumber : Option String
  isUnread : Bool
  isUnreadWithMention : Bool
  hasDraftComment : Bool
  keyForList : String
  searchText : Option String
  isPinned : Bool
  hasOutstandingChildRequest : Bool
  hasOutstandingChildTask : Bool
  hasParentAccess : Option Bool
  isIOUReportOwner : Bool
  isChatRoom : Bool
  isArchivedRoom : Bool
  shouldShowSubscript : Bool
  isPolicyExpenseChat : Bool
  isMoneyRequestReport : Bool
  isExpenseRequest : Bool
  isWaitingOnBankAccount : Bool
  isAllowedToComment : Bool
  isDeletedParentAction : Bool
  isThread : Bool
  isTaskReport : Bool
  isInvoiceReport : Bool
  parentReportAction : Option ReportAction
  pendingAction : Option String
  ownerAccountID : Option Nat
  managerID : Option Nat
  policyID : Option String
  stateNum : Option Nat
  statusNum : Option Nat
  iouReportID : Option String
  parentReportID : String
  notificationPreference : Option String
  chatType : Option String
  isSelfDM : Bool
  participantsList : List PersonalDetail
  icons : List String
  displayNamesWithTooltips : List DisplayNameWithTooltip
  status : Option String
  type : Option String
  deriving Repr, DecidableEq

/-- Lines 206-458.  Returns `none` exactly on the early guard of lines
226-228 (`!report || !personalDetails`); otherwise builds the record by the
source's assignment sequence: the base assignments (lines 230-304 and the
alternate-text block), the join-request override (lines 430-434), the
single-participant fields (lines 436-440), the trailing assignments
(lines 442-455), and the conditional `status` (lines 452-454). -/
def getOptionData (env : OptionEnv) (a : OptionArgs) : Option OptionData :=
  match a.report, a.personalDetails with
  | some report, some personalDetails =>
    let participantAccountIDs := env.getParticipantsAccountIDsForDisplay report false
    let visibleParticipantAccountIDs := env.getParticipantsAccountIDsForDisplay report true
    let participantPersonalDetailList :=
      env.getPersonalDetailsForAccountIDs participantAccountIDs personalDetails
    let personalDetail := participantPersonalDetailList.headD {}
    let allReportErrors := env.getAllReportErrors report a.reportActions
    let hasErrors := !allReportErrors.isEmpty
    let isChatRoom := env.isChatRoom report
    let isPolicyExpenseChat := env.isPolicyExpenseChat report
    let isThread := env.isChatThread report
    let hasMultipleParticipants := participantPersonalDetailList.length > 1
      || isChatRoom || isPolicyExpenseChat || env.isExpenseReport report
    let subtitle := env.getChatRoomSubtitle report
    let status := personalDetail.status.getD ""
    let displayNamesWithTooltips := getDisplayNamesWithTooltips
      (participantPersonalDetailList.take 10) hasMultipleParticipants (env.isSelfDM report)
    let reportName := env.getReportName report a.policy
    let base : OptionData := {
      text := ""
      alternateText := env.computeAlternateText report a.reportActions a.preferredLocale a.policy
      allReportErrors := allReportErrors
      brickRoadIndicator :=
        if hasErrors || a.hasViolations then some "error" else some ""
      tooltipText := some (env.getReportParticipantsTitle visibleParticipantAccountIDs)
      subtitle := none
      login := none
      accountID := none
      reportID := report.reportID
      phoneNumber := none
      isUnread := env.isUnread report && truthyNat report.lastActorAccountID
      isUnreadWithMention := env.isUnreadWithMention report
      hasDraftComment := false
      keyForList := report.reportID.getD "undefined"
      searchText := none
      isPinned := report.isPinned
      hasOutstandingChildRequest := report.hasOutstandingChildRequest
      hasOutstandingChildTask := report.hasOutstandingChildTask
      hasParentAccess := report.hasParentAccess
      isIOUReportOwner := env.isIOUOwnedByCurrentUser report
      isChatRoom := isChatRoom
      isArchivedRoom := env.isArchivedRoom report
      shouldShowSubscript := env.shouldReportShowSubscript report
      isPolicyExpenseChat := isPolicyExpenseChat
      isMoneyRequestReport := env.isMoneyRequestReport report
      isExpenseRequest := env.isExpenseRequest report
      isWaitingOnBankAccount := report.isWaitingOnBankAccount
      isAllowedToComment := env.canUserPerformWriteAction report
      isDeletedParentAction := report.isDeletedParentAction
      isThread := isThread
      isTaskReport := env.isTaskReport report
      isInvoiceReport := env.isInvoiceReport report
      parentReportAction := a.parentReportAction
      pendingAction := match report.pendingAddWorkspaceRoom with
        | some p => some p
        | none => report.pendingCreateChat
      ownerAccountID := report.ownerAccountID
      managerID := report.managerID
      policyID := report.policyID
      stateNum := report.stateNum
      statusNum := report.statusNum
      iouReportID := report.iouReportID
      parentReportID := report.parentReportID.getD "-1"
      notificationPreference := report.notificationPreference
      chatType := report.chatType
      isSelfDM := env.isSelfDM report
      participantsList := []
      icons := []
      displayNamesWithTooltips := []
      status := none
      type := none
    }
    let afterJoin :=
      if env.isJoinRequestInAdminRoom report then
        { base with isPinned := true, isUnread := true, brickRoadIndicator := some "info" }
      else base
    let afterSingle :=
      if !hasMultipleParticipants then
        { afterJoin with
            accountID := personalDetail.accountID
            login := personalDetail.login
            phoneNumber := personalDetail.phoneNumber }
      else afterJoin
    let afterTail := { afterSingle with
      text := reportName
      subtitle := subtitle
      participantsList := participantPersonalDetailList
      icons := env.getIcons report personalDetails personalDetail.avatar personalDetail.login
        personalDetail.accountID a.policy
      searchText := some (env.getSearchText report reportName participantPersonalDetailList
        (isChatRoom || isPolicyExpenseChat) isThread)
      displayNamesWithTooltips := displayNamesWithTooltips
      type := report.type }
    let final :=
      if !(status == "") then { afterTail with status := some status } else afterTail
    some final
  | _, _ => none

/-! ### Generic facts about the stable comparator sort -/

theorem insCmp_perm (cmp : α → α → Int) (x : α) (l : List α) :
    (insCmp cmp x l).Perm (x :: l) := by
  induction l with
  | nil => exact List.Perm.refl _
  | cons y ys ih =>
    unfold insCmp
    split
    · exact List.Perm.refl _
    · exact (List.Perm.cons y ih).trans (List.Perm.swap x y ys)

theorem sortCmp_perm (cmp : α → α → Int) (l : List α) :
    (sortCmp cmp l).Perm l := by
  induction l with
  | nil => exact List.Perm.refl _
  | cons x xs ih => exact (insCmp_perm cmp x (sortCmp cmp xs)).trans (ih.cons x)

theorem mem_sortCmp (cmp : α → α → Int) (l : List α) (a : α) :
    a ∈ sortCmp cmp l ↔ a ∈ l :=
  (sortCmp_perm cmp l).mem_iff

theorem insCmp_map (cmp : β → β → Int) (cmp' : α → α → Int) (f : α → β)
    (h : ∀ a b, cmp (f a) (f b) = cmp' a b) (x : α) (l : List α) :
    insCmp cmp (f x) (l.map f) = (insCmp cmp' x l).map f := by
  induction l with
  | nil => rfl
  | cons y ys ih =>
    simp only [List.map_cons, insCmp, h]
    split
    · simp
    · simp [ih]

theorem sortCmp_map (cmp : β → β → Int) (cmp' : α → α → Int) (f : α → β)
    (h : ∀ a b, cmp (f a) (f b) = cmp' a b) (l : List α) :
    sortCmp cmp (l.map f) = (sortCmp cmp' l).map f := by
  induction l with
  | nil => rfl
  | cons x xs ih => simp only [List.map_cons, sortCmp, ih, insCmp_map cmp cmp' f h]

theorem insCmp_pairwise (cmp : α → α → Int) (x : α) (l : List α)
    (hl : l.Pairwise (fun a b => cmp a b ≤ 0))
    (hflip : ∀ b ∈ l, 0 ≤ cmp x b → cmp b x ≤ 0)
    (htrans : ∀ b ∈ l, ∀ c ∈ l, cmp x b ≤ 0 → cmp b c ≤ 0 → cmp x c ≤ 0) :
    (insCmp cmp x l).Pairwise (fun a b => cmp a b ≤ 0) := by
  induction l with
  | nil => simp [insCmp]
  | cons y ys ih =>
    unfold insCmp
    rcases List.pairwise_cons.mp hl with ⟨hy, hys⟩
    split
    · rename_i hxy
      refine List.pairwise_cons.mpr ⟨?_, hl⟩
      intro z hz
      rcases List.mem_cons.mp hz with rfl | hz
      · exact hxy
      · exact htrans y (List.mem_cons_self y ys) z (List.mem_cons.mpr (Or.inr hz)) hxy (hy z hz)
    · rename_i hxy
      push_neg at hxy
      refine List.pairwise_cons.mpr ⟨?_, ?_⟩
      · intro z hz
        rcases (insCmp_perm cmp x ys).mem_iff.mp hz with hz'
        rcases List.mem_cons.mp hz' with rfl | hz''
        · exact hflip y (List.mem_cons_self y ys) (le_of_lt hxy)
        · exact hy z hz''
      · refine ih hys ?_ ?_
        · intro b hb hxb
          exact hflip b (List.mem_cons.mpr (Or.inr hb)) hxb
        · intro b hb c hc
          exact htrans b (List.mem_cons.mpr (Or.inr hb)) c (List.mem_cons.mpr (Or.inr hc))

theorem sortCmp_pairwise (cmp : α → α → Int) (l : List α)
    (hflip : ∀ a ∈ l, ∀ b ∈ l, 0 ≤ cmp a b → cmp b a ≤ 0)
    (htrans : ∀ a ∈ l, ∀ b ∈ l, ∀ c ∈ l, cmp a b ≤ 0 → cmp b c ≤ 0 → cmp a c ≤ 0) :
    (sortCmp cmp l).Pairwise (fun a b => cmp a b ≤ 0) := by
  induction l with
  | nil => simp [sortCmp]
  | cons x xs ih =>
    unfold sortCmp
    have hmemx : x ∈ x :: xs := List.mem_cons_self x xs
    have hsub : ∀ a ∈ sortCmp cmp xs, a ∈ x :: xs := by
      intro a ha
      exact List.mem_cons.mpr (Or.inr ((mem_sortCmp cmp xs a).mp ha))
    refine insCmp_pairwise cmp x (sortCmp cmp xs) ?_ ?_ ?_
    · refine ih ?_ ?_
      · intro a ha b hb
        exact hflip a (List.mem_cons.mpr (Or.inr ha)) b (List.mem_cons.mpr (Or.inr hb))
      · intro a ha b hb c hc
        exact htrans a (List.mem_cons.mpr (Or.inr ha)) b (List.mem_cons.mpr (Or.inr hb))
          c (List.mem_cons.mpr (Or.inr hc))
    · intro b hb
      exact hflip x hmemx b (hsub b hb)
    · intro b hb c hc
      exact htrans x hmemx b (hsub b hb) c (hsub c hc)

theorem sortCmp_of_all_nonpos (cmp : α → α → Int) (l : List α)
    (h : ∀ a ∈ l, ∀ b ∈ l, cmp a b ≤ 0) : sortCmp cmp l = l := by
  induction l with
  | nil => rfl
  | cons x xs ih =>
    have hxs : sortCmp cmp xs = xs := by
      refine ih ?_
      intro a ha b hb
      exact h a (List.mem_cons.mpr (Or.inr ha)) b (List.mem_cons.mpr (Or.inr hb))
    unfold sortCmp
    rw [hxs]
    cases xs with
    | nil => rfl
    | cons y ys =>
      unfold insCmp
      rw [if_pos (h x (List.mem_cons_self _ _) y (List.mem_cons.mpr (Or.inr (List.mem_cons_self _ _))))]

/-! ### The bucket fold agrees with classification by `classifySpec` -/

theorem bucketsOf_eq (env : OrderEnv) (l : List DisplayReport) :
    bucketsOf env l =
      ⟨(l.filter (fun d => classifySpec env d == .pinnedGBR)).map (miniOf env),
       (l.filter (fun d => classifySpec env d == .drafts)).map (miniOf env),
       (l.filter (fun d => classifySpec env d == .defaultB)).map (miniOf env),
       (l.filter (fun d => classifySpec env d == .archivedB)).map (miniOf env),
       (l.filter (fun d => classifySpec env d == .errorsB)).map (miniOf env)⟩ := by
  induction l with
  | nil => rfl
  | cons d rest ih =>
    simp only [bucketsOf, ih, List.filter_cons]
    by_cases h1 : (d.report.isPinned || env.requiresAttentionFromCurrentUser d.report) = true
    · simp [classifySpec, h1]
    · by_cases h2 : env.hasValidDraftComment (d.report.reportID.getD "-1") = true
      · simp [classifySpec, h1, h2]
      · by_cases h3 : env.isArchivedRoom d.report = true
        · simp [classifySpec, h1, h2, h3]
        · by_cases h4 : d.hasErrorsOtherThanFailedReceipt = true
          · simp [classifySpec, h1, h2, h3, h4]
          · simp [classifySpec, h1, h2, h3, h4]

theorem classify_partition (env : OrderEnv) (l : List DisplayReport) :
    ((l.filter (fun d => classifySpec env d == .pinnedGBR))
      ++ (l.filter (fun d => classifySpec env d == .errorsB))
      ++ (l.filter (fun d => classifySpec env d == .drafts))
      ++ (l.filter (fun d => classifySpec env d == .defaultB))
      ++ (l.filter (fun d => classifySpec env d == .archivedB))).Perm l := by
  induction l with
  | nil => rfl
  | cons d rest ih =>
    refine List.perm_iff_count.mpr ?_
    intro x
    have hx := List.perm_iff_count.mp ih x
    simp only [List.count_append] at hx
    simp only [List.filter_cons]
    cases h : classifySpec env d <;>
      simp only [List.count_append, List.count_cons, beq_iff_eq, reduceCtorEq, if_true, if_false,
        beq_self_eq_true, decide_True, decide_False, ite_true, ite_false, Bool.false_eq_true] <;>
      split_ifs <;> omega

/-! ### Survivors and emitted identifiers -/

theorem filterStep_report (env : OrderEnv) (cfg : OrderConfig) (r : Report) (d : DisplayReport)
    (h : filterStep env cfg r = some d) : d.report = r := by
  unfold filterStep at h
  split at h
  · exact absurd h (by simp)
  · split at h
    · injection h with h2
      rw [← h2]
    · split at h
      · exact absurd h (by simp)
      · split at h
        · injection h with h2
          rw [← h2]
        · exact absurd h (by simp)

theorem mem_reportsToDisplay (env : OrderEnv) (cfg : OrderConfig) (rs : List (Option Report))
    (d : DisplayReport) (h : d ∈ reportsToDisplay env cfg rs) : some d.report ∈ rs := by
  have hbase : d ∈ rs.filterMap (fun o => o.bind (filterStep env cfg)) := by
    unfold reportsToDisplay at h
    split at h
    · exact List.mem_of_mem_filter h
    · exact h
  rcases List.mem_filterMap.mp hbase with ⟨o, ho, hbind⟩
  cases o with
  | none => simp at hbind
  | some r =>
    simp only [Option.bind_some, Option.some_bind] at hbind
    rw [filterStep_report env cfg r d hbind]
    exact ho

theorem reportsToDisplay_ids_sublist (env : OrderEnv) (cfg : OrderConfig)
    (rs : List (Option Report)) :
    ((reportsToDisplay env cfg rs).map (fun d => d.report.reportID.getD "-1")).Sublist
      ((rs.filterMap id).map (fun r => r.reportID.getD "-1")) := by
  have hbase : ∀ rs' : List (Option Report),
      ((rs'.filterMap (fun o => o.bind (filterStep env cfg))).map
          (fun d => d.report.reportID.getD "-1")).Sublist
        ((rs'.filterMap id).map (fun r => r.reportID.getD "-1")) := by
    intro rs'
    induction rs' with
    | nil => simp
    | cons o rest ih =>
      cases o with
      | none => simpa using ih
      | some r =>
        cases hfs : filterStep env cfg r with
        | none =>
          simp only [List.filterMap_cons, Option.bind_some, Option.some_bind, hfs, id_eq,
            List.map_cons]
          exact ih.cons _
        | some d =>
          have hd := filterStep_report env cfg r d hfs
          simp only [List.filterMap_cons, Option.bind_some, Option.some_bind, hfs, id_eq,
            List.map_cons, hd]
          exact ih.cons₂ _
  unfold reportsToDisplay
  split
  · exact (List.Sublist.map _ (List.filter_sublist _)).trans (hbase rs)
  · exact hbase rs

theorem sortedNonArchived_perm (env : OrderEnv) (cfg : OrderConfig) (rs : List (Option Report)) :
    (sortedNonArchived env cfg rs).Perm
      (bucketsOf env (reportsToDisplay env cfg rs)).nonArchivedReports := by
  unfold sortedNonArchived
  split <;> exact sortCmp_perm _ _

theorem sortedArchived_perm (env : OrderEnv) (cfg : OrderConfig) (rs : List (Option Report)) :
    (sortedArchived env cfg rs).Perm
      (bucketsOf env (reportsToDisplay env cfg rs)).archivedReports := by
  unfold sortedArchived
  split <;> exact sortCmp_perm _ _

theorem getOrderedReportIDs_perm (env : OrderEnv) (cfg : OrderConfig)
    (rs : List (Option Report)) :
    (getOrderedReportIDs env cfg rs).Perm
      ((reportsToDisplay env cfg rs).map (fun d => d.report.reportID.getD "-1")) := by
  unfold getOrderedReportIDs
  have hP : (sortedPinned env cfg rs).Perm
      (bucketsOf env (reportsToDisplay env cfg rs)).pinnedAndGBRReports := sortCmp_perm _ _
  have hE : (sortedErrors env cfg rs).Perm
      (bucketsOf env (reportsToDisplay env cfg rs)).errorReports := sortCmp_perm _ _
  have hD : (sortedDrafts env cfg rs).Perm
      (bucketsOf env (reportsToDisplay env cfg rs)).draftReports := sortCmp_perm _ _
  have hN := sortedNonArchived_perm env cfg rs
  have hA := sortedArchived_perm env cfg rs
  have happ : (sortedPinned env cfg rs ++ sortedErrors env cfg rs ++ sortedDrafts env cfg rs
      ++ sortedNonArchived env cfg rs ++ sortedArchived env cfg rs).Perm
      ((bucketsOf env (reportsToDisplay env cfg rs)).pinnedAndGBRReports
        ++ (bucketsOf env (reportsToDisplay env cfg rs)).errorReports
        ++ (bucketsOf env (reportsToDisplay env cfg rs)).draftReports
        ++ (bucketsOf env (reportsToDisplay env cfg rs)).nonArchivedReports
        ++ (bucketsOf env (reportsToDisplay env cfg rs)).archivedReports) :=
    ((((hP.append hE).append hD).append hN).append hA)
  refine (happ.map idOfMini).trans ?_
  rw [bucketsOf_eq]
  have := (classify_partition env (reportsToDisplay env cfg rs)).map
    (fun d => d.report.reportID.getD "-1")
  simpa [List.map_map, Function.comp, idOfMini, miniOf] using this

/-! ### Claims C1, C2, C5 -/

/-- Claim C2: every report surviving the filter is assigned to a bucket by
the mutually exclusive priority tests pinned-or-attention, else unresolved
draft, else archived, else forced-visible error flag, else default
(`classifySpec`); the five arrays accumulated by the source's `forEach`
chain are exactly the order-preserving selections of survivors so
classified, and since `classifySpec` is a total function each survivor
lands in exactly one bucket. -/
theorem c2_bucket_partition (env : OrderEnv) (l : List DisplayReport) :
    ((bucketsOf env l).pinnedAndGBRReports
        = (l.filter (fun d => classifySpec env d == .pinnedGBR)).map (miniOf env)
      ∧ (bucketsOf env l).draftReports
        = (l.filter (fun d => classifySpec env d == .drafts)).map (miniOf env)
      ∧ (bucketsOf env l).archivedReports
        = (l.filter (fun d => classifySpec env d == .archivedB)).map (miniOf env)
      ∧ (bucketsOf env l).errorReports
        = (l.filter (fun d => classifySpec env d == .errorsB)).map (miniOf env)
      ∧ (bucketsOf env l).nonArchivedReports
        = (l.filter (fun d => classifySpec env d == .defaultB)).map (miniOf env))
    ∧ ∀ d ∈ l, ∃! b : Bucket, classifySpec env d = b := by
  constructor
  · rw [bucketsOf_eq]
    exact ⟨rfl, rfl, rfl, rfl, rfl⟩
  · intro d _
    exact ⟨classifySpec env d, rfl, fun b hb => hb.symm⟩

/-- Claim C1: for every input, the identifier sequence returned by
`getOrderedReportIDs` is the concatenation, in the fixed order
pinned/GBR, errors, drafts, default (non-archived), archived, of the
identifiers of the reports classified to each bucket (each segment being a
permutation of its bucket's identifiers, reordered only by the intra-bucket
sort); hence every pinned/GBR identifier precedes every error identifier,
which precedes every draft identifier, which precedes every default
identifier, which precedes every archived identifier, regardless of
timestamps. -/
theorem c1_bucket_concatenation_order (env : OrderEnv) (cfg : OrderConfig)
    (rs : List (Option Report)) :
    ∃ p e dr n a : List String,
      getOrderedReportIDs env cfg rs = p ++ e ++ dr ++ n ++ a
      ∧ p.Perm (((reportsToDisplay env cfg rs).filter
          (fun d => classifySpec env d == .pinnedGBR)).map (fun d => d.report.reportID.getD "-1"))
      ∧ e.Perm (((reportsToDisplay env cfg rs).filter
          (fun d => classifySpec env d == .errorsB)).map (fun d => d.report.reportID.getD "-1"))
      ∧ dr.Perm (((reportsToDisplay env cfg rs).filter
          (fun d => classifySpec env d == .drafts)).map (fun d => d.report.reportID.getD "-1"))
      ∧ n.Perm (((reportsToDisplay env cfg rs).filter
          (fun d => classifySpec env d == .defaultB)).map (fun d => d.report.reportID.getD "-1"))
      ∧ a.Perm (((reportsToDisplay env cfg rs).filter
          (fun d => classifySpec env d == .archivedB)).map (fun d => d.report.reportID.getD "-1")) := by
  refine ⟨(sortedPinned env cfg rs).map idOfMini, (sortedErrors env cfg rs).map idOfMini,
    (sortedDrafts env cfg rs).map idOfMini, (sortedNonArchived env cfg rs).map idOfMini,
    (sortedArchived env cfg rs).map idOfMini, ?_, ?_, ?_, ?_, ?_, ?_⟩
  · simp [getOrderedReportIDs]
  · unfold sortedPinned
    refine ((sortCmp_perm _ _).map idOfMini).trans ?_
    rw [bucketsOf_eq, List.map_map]
    exact List.Perm.refl _
  · unfold sortedErrors
    refine ((sortCmp_perm _ _).map idOfMini).trans ?_
    rw [bucketsOf_eq, List.map_map]
    exact List.Perm.refl _
  · unfold sortedDrafts
    refine ((sortCmp_perm _ _).map idOfMini).trans ?_
    rw [bucketsOf_eq, List.map_map]
    exact List.Perm.refl _
  · refine ((sortedNonArchived_perm env cfg rs).map idOfMini).trans ?_
    rw [bucketsOf_eq, List.map_map]
    exact List.Perm.refl _
  · refine ((sortedArchived_perm env cfg rs).map idOfMini).trans ?_
    rw [bucketsOf_eq, List.map_map]
    exact List.Perm.refl _

/-- Concrete environment for the claim C5 analysis: no violations, no
errors, nothing filtered out, every report admitted to the option list. -/
def envC5 : OrderEnv where
  shouldShowViolations := fun _ => false
  getAllReportErrors := fun _ => []
  genericSmartscanFailureMessage := ""
  isOneTransactionThread := fun _ _ => false
  isSystemChat := fun _ => false
  shouldReportBeInOptionList := fun _ _ _ => true
  doesReportBelongToWorkspace := fun _ => true
  requiresAttentionFromCurrentUser := fun _ => false
  hasValidDraftComment := fun _ => false
  isArchivedRoom := fun _ => false
  getReportName := fun _ => ""
  localeCompare := fun _ _ => 0

/-- Claim C5 is false as stated: two malformed reports without a
`reportID` both survive (pinned, visible, admitted), both fall back to the
sentinel `"-1"` (line 198), and the returned sequence `["-1", "-1"]`
contains a duplicate. -/
theorem c5_counterexample :
    getOrderedReportIDs envC5 {} [some {isPinned := true}, some {isPinned := true}]
        = ["-1", "-1"]
      ∧ ¬ (getOrderedReportIDs envC5 {}
          [some {isPinned := true}, some {isPinned := true}]).Nodup := by
  constructor
  · rfl
  · decide

/-- Claim C5, amended: unconditionally, every element of the returned
sequence is the `reportID` of some input report or the sentinel `"-1"`
standing for a report without one; and whenever the sentinel-resolved
identifiers (`reportID ?? '-1'`) of the non-null input reports are
pairwise distinct, the returned sequence has no duplicates. -/
theorem c5_nodup_and_subset (env : OrderEnv) (cfg : OrderConfig) (rs : List (Option Report)) :
    (∀ s ∈ getOrderedReportIDs env cfg rs,
        (∃ r : Report, some r ∈ rs ∧ r.reportID = some s) ∨ s = "-1")
    ∧ (((rs.filterMap id).map (fun r => r.reportID.getD "-1")).Nodup →
        (getOrderedReportIDs env cfg rs).Nodup) := by
  have hperm := getOrderedReportIDs_perm env cfg rs
  refine ⟨?_, ?_⟩
  case refine_2 =>
    intro hnd
    exact hperm.nodup_iff.mpr ((reportsToDisplay_ids_sublist env cfg rs).nodup hnd)
  case refine_1 =>
    intro s hs
    have hs2 := hperm.mem_iff.mp hs
    rcases List.mem_map.mp hs2 with ⟨d, hd, hid⟩
    have hr := mem_reportsToDisplay env cfg rs d hd
    cases hrid : d.report.reportID with
    | none =>
      right
      rw [← hid, hrid]
      rfl
    | some x =>
      left
      refine ⟨d.report, hr, ?_⟩
      rw [hrid]
      rw [← hid, hrid]
      rfl

/-- Witness for the amended claim C5 at a concrete input with two distinct
well-formed reports, also discharging the distinct-identifiers antecedent
of the no-duplicates conjunct there. -/
theorem c5_nodup_and_subset_witness :
    ((∀ s ∈ getOrderedReportIDs envC5 {} [some {reportID := some "a", isPinned := true},
          some {reportID := some "b"}],
        (∃ r : Report, some r ∈ [some ({reportID := some "a", isPinned := true} : Report),
            some ({reportID := some "b"} : Report)] ∧ r.reportID = some s) ∨ s = "-1")
      ∧ (((([some ({reportID := some "a", isPinned := true} : Report),
            some ({reportID := some "b"} : Report)] : List (Option Report)).filterMap id).map
              (fun r => r.reportID.getD "-1")).Nodup →
          (getOrderedReportIDs envC5 {} [some {reportID := some "a", isPinned := true},
            some {reportID := some "b"}]).Nodup))
    ∧ ((([some ({reportID := some "a", isPinned := true} : Report),
          some ({reportID := some "b"} : Report)] : List (Option Report)).filterMap id).map
            (fun r => r.reportID.getD "-1")).Nodup
    ∧ (getOrderedReportIDs envC5 {} [some {reportID := some "a", isPinned := true},
        some {reportID := some "b"}]).Nodup :=
  ⟨c5_nodup_and_subset envC5 {} _, by decide,
    (c5_nodup_and_subset envC5 {}
      [some {reportID := some "a", isPinned := true}, some {reportID := some "b"}]).2
      (by decide)⟩

/-! ### Order facts about the lexicographic string comparison -/

theorem charListLt_irrefl : ∀ l : List Char, charListLt l l = false := by
  intro l
  induction l with
  | nil => rfl
  | cons a as ih => simp [charListLt, lt_irrefl, ih]

theorem charListLt_asymm : ∀ l1 l2 : List Char,
    charListLt l1 l2 = true → charListLt l2 l1 = false := by
  intro l1
  induction l1 with
  | nil =>
    intro l2 h
    cases l2 with
    | nil => simp [charListLt] at h
    | cons b bs => simp [charListLt]
  | cons a as ih =>
    intro l2 h
    cases l2 with
    | nil => simp [charListLt] at h
    | cons b bs =>
      unfold charListLt at h ⊢
      by_cases hab : a < b
      · rw [if_neg (lt_asymm hab), if_pos hab]
      · by_cases hba : b < a
        · rw [if_neg hab, if_pos hba] at h
          exact absurd h (by simp)
        · rw [if_neg hab, if_neg hba] at h
          rw [if_neg hba, if_neg hab]
          exact ih bs h

theorem charListLt_eq_of_both_false : ∀ l1 l2 : List Char,
    charListLt l1 l2 = false → charListLt l2 l1 = false → l1 = l2 := by
  intro l1
  induction l1 with
  | nil =>
    intro l2 h1 h2
    cases l2 with
    | nil => rfl
    | cons b bs => simp [charListLt] at h1
  | cons a as ih =>
    intro l2 h1 h2
    cases l2 with
    | nil => simp [charListLt] at h2
    | cons b bs =>
      unfold charListLt at h1 h2
      by_cases hab : a < b
      · rw [if_pos hab] at h1
        exact absurd h1 (by simp)
      · by_cases hba : b < a
        · rw [if_pos hba] at h2
          exact absurd h2 (by simp)
        · rw [if_neg hab, if_neg hba] at h1
          rw [if_neg hba, if_neg hab] at h2
          have hchar : a = b := le_antisymm (not_lt.mp hba) (not_lt.mp hab)
          rw [hchar, ih bs h1 h2]

theorem charListLt_trans : ∀ l1 l2 l3 : List Char,
    charListLt l1 l2 = true → charListLt l2 l3 = true → charListLt l1 l3 = true := by
  intro l1
  induction l1 with
  | nil =>
    intro l2 l3 h1 h2
    cases l2 with
    | nil => simp [charListLt] at h1
    | cons b bs =>
      cases l3 with
      | nil => simp [charListLt] at h2
      | cons c cs => simp [charListLt]
  | cons a as ih =>
    intro l2 l3 h1 h2
    cases l2 with
    | nil => simp [charListLt] at h1
    | cons b bs =>
      cases l3 with
      | nil => simp [charListLt] at h2
      | cons c cs =>
        unfold charListLt at h1 h2 ⊢
        by_cases hab : a < b
        · by_cases hbc : b < c
          · rw [if_pos (lt_trans hab hbc)]
          · by_cases hcb : c < b
            · rw [if_neg hbc, if_pos hcb] at h2
              exact absurd h2 (by simp)
            · have hbceq : b = c := le_antisymm (not_lt.mp hcb) (not_lt.mp hbc)
              rw [if_pos (hbceq ▸ hab)]
        · by_cases hba : b < a
          · rw [if_neg hab, if_pos hba] at h1
            exact absurd h1 (by simp)
          · have habeq : a = b := le_antisymm (not_lt.mp hba) (not_lt.mp hab)
            rw [if_neg hab, if_neg hba] at h1
            by_cases hbc : b < c
            · rw [if_pos (habeq ▸ hbc)]
            · by_cases hcb : c < b
              · rw [if_neg hbc, if_pos hcb] at h2
                exact absurd h2 (by simp)
              · rw [if_neg hbc, if_neg hcb] at h2
                have hbceq : b = c := le_antisymm (not_lt.mp hcb) (not_lt.mp hbc)
                have hac : ¬ a < c := by rw [habeq, hbceq]; exact lt_irrefl c
                have hca : ¬ c < a := by rw [habeq, hbceq]; exact lt_irrefl c
                rw [if_neg hac, if_neg hca]
                exact ih bs cs h1 h2

theorem strLt_irrefl (a : String) : strLt a a = false :=
  charListLt_irrefl a.data

theorem strLt_asymm {a b : String} (h : strLt a b = true) : strLt b a = false :=
  charListLt_asymm a.data b.data h

theorem strLt_eq_of_both_false {a b : String} (h1 : strLt a b = false)
    (h2 : strLt b a = false) : a = b := by
  have h := charListLt_eq_of_both_false a.data b.data h1 h2
  cases a with
  | mk da =>
    cases b with
    | mk db => exact congrArg String.mk (by simpa using h)

theorem strLt_trans {a b c : String} (h1 : strLt a b = true) (h2 : strLt b c = true) :
    strLt a c = true :=
  charListLt_trans a.data b.data c.data h1 h2

theorem csd_of_lt {a b : String} (h : strLt a b = true) : compareStringDates a b = -1 := by
  simp [compareStringDates, h]

theorem csd_of_both_false {a b : String} (h1 : strLt a b = false) (h2 : strLt b a = false) :
    compareStringDates a b = 0 := by
  simp [compareStringDates, h1, h2]

theorem csd_nonpos {a b : String} : compareStringDates a b ≤ 0 ↔ strLt b a = false := by
  unfold compareStringDates
  cases h1 : strLt a b with
  | true => norm_num [strLt_asymm h1]
  | false =>
    cases h2 : strLt b a with
    | true => norm_num
    | false => norm_num

theorem csd_nonneg {a b : String} : 0 ≤ compareStringDates a b ↔ strLt a b = false := by
  unfold compareStringDates
  cases h1 : strLt a b with
  | true => norm_num
  | false =>
    cases h2 : strLt b a with
    | true => norm_num
    | false => norm_num

/-- The timestamp a mini-report is compared by (`lastVisibleActionCreated`,
empty when missing; the comparators only consult it when it is truthy). -/
def tsOf (m : MiniReport) : String :=
  m.lastVisibleActionCreated.getD ""

theorem nameCmp_eq (env : OrderEnv) {a b : MiniReport} (ha : a.displayName ≠ "")
    (hb : b.displayName ≠ "") :
    nameCmp env a b = env.localeCompare a.displayName b.displayName := by
  unfold nameCmp
  rw [if_pos (by simp [ha, hb])]

theorem dateCmpDesc_eq {a b : MiniReport} (ha : truthyStr a.lastVisibleActionCreated = true)
    (hb : truthyStr b.lastVisibleActionCreated = true) :
    dateCmpDesc a b = compareStringDates (tsOf b) (tsOf a) := by
  unfold dateCmpDesc tsOf
  rw [if_pos (by rw [ha, hb]; rfl)]

theorem dateCmpDesc_nonpos {a b : MiniReport} (ha : truthyStr a.lastVisibleActionCreated = true)
    (hb : truthyStr b.lastVisibleActionCreated = true) :
    dateCmpDesc a b ≤ 0 ↔ strLt (tsOf a) (tsOf b) = false := by
  rw [dateCmpDesc_eq ha hb]
  exact csd_nonpos

theorem dateCmpDesc_nonneg {a b : MiniReport} (ha : truthyStr a.lastVisibleActionCreated = true)
    (hb : truthyStr b.lastVisibleActionCreated = true) :
    0 ≤ dateCmpDesc a b ↔ strLt (tsOf b) (tsOf a) = false := by
  rw [dateCmpDesc_eq ha hb]
  exact csd_nonneg

theorem defaultModeCmp_nonpos (env : OrderEnv) {a b : MiniReport}
    (ha : truthyStr a.lastVisibleActionCreated = true)
    (hb : truthyStr b.lastVisibleActionCreated = true)
    (han : a.displayName ≠ "") (hbn : b.displayName ≠ "") :
    defaultModeCmp env a b ≤ 0 ↔
      (strLt (tsOf b) (tsOf a) = true
        ∨ (tsOf a = tsOf b ∧ env.localeCompare a.displayName b.displayName ≤ 0)) := by
  unfold defaultModeCmp
  rw [dateCmpDesc_eq ha hb, nameCmp_eq env han hbn]
  cases h1 : strLt (tsOf b) (tsOf a) with
  | true =>
    rw [csd_of_lt h1]
    norm_num
  | false =>
    cases h2 : strLt (tsOf a) (tsOf b) with
    | true =>
      have hv : compareStringDates (tsOf b) (tsOf a) = 1 := by
        unfold compareStringDates
        rw [if_neg (by simp [h1]), if_pos h2]
      rw [hv]
      have hne : ¬ (tsOf a = tsOf b) := by
        intro he
        rw [he, strLt_irrefl] at h2
        exact absurd h2 (by simp)
      norm_num [hne]
    | false =>
      rw [csd_of_both_false h1 h2]
      have heq : tsOf a = tsOf b := strLt_eq_of_both_false h2 h1
      norm_num [heq]

theorem defaultModeCmp_nonneg (env : OrderEnv) {a b : MiniReport}
    (ha : truthyStr a.lastVisibleActionCreated = true)
    (hb : truthyStr b.lastVisibleActionCreated = true)
    (han : a.displayName ≠ "") (hbn : b.displayName ≠ "") :
    0 ≤ defaultModeCmp env a b ↔
      (strLt (tsOf a) (tsOf b) = true
        ∨ (tsOf a = tsOf b ∧ 0 ≤ env.localeCompare a.displayName b.displayName)) := by
  unfold defaultModeCmp
  rw [dateCmpDesc_eq ha hb, nameCmp_eq env han hbn]
  cases h1 : strLt (tsOf b) (tsOf a) with
  | true =>
    rw [csd_of_lt h1]
    have h2 : strLt (tsOf a) (tsOf b) = false := strLt_asymm h1
    have hne : ¬ (tsOf a = tsOf b) := by
      intro he
      rw [he, strLt_irrefl] at h1
      exact absurd h1 (by simp)
    norm_num [h2, hne]
  | false =>
    cases h2 : strLt (tsOf a) (tsOf b) with
    | true =>
      have hv : compareStringDates (tsOf b) (tsOf a) = 1 := by
        unfold compareStringDates
        rw [if_neg (by simp [h1]), if_pos h2]
      rw [hv]
      norm_num
    | false =>
      rw [csd_of_both_false h1 h2]
      have heq : tsOf a = tsOf b := strLt_eq_of_both_false h2 h1
      norm_num [heq]

theorem defaultModeCmp_sorted (env : OrderEnv) (L : List MiniReport)
    (lcFlip : ∀ s t, 0 ≤ env.localeCompare s t → env.localeCompare t s ≤ 0)
    (lcTrans : ∀ s t u, env.localeCompare s t ≤ 0 → env.localeCompare t u ≤ 0 →
      env.localeCompare s u ≤ 0)
    (hdef : ∀ m ∈ L, truthyStr m.lastVisibleActionCreated = true ∧ m.displayName ≠ "") :
    (sortCmp (defaultModeCmp env) L).Pairwise (fun a b =>
      strLt (tsOf b) (tsOf a) = true
        ∨ (tsOf a = tsOf b ∧ env.localeCompare a.displayName b.displayName ≤ 0)) := by
  have hflip : ∀ a ∈ L, ∀ b ∈ L, 0 ≤ defaultModeCmp env a b → defaultModeCmp env b a ≤ 0 := by
    intro a ha b hb h0
    have hha := hdef a ha
    have hhb := hdef b hb
    have h0' := (defaultModeCmp_nonneg env hha.1 hhb.1 hha.2 hhb.2).mp h0
    refine (defaultModeCmp_nonpos env hhb.1 hha.1 hhb.2 hha.2).mpr ?_
    rcases h0' with h | ⟨he, hlc⟩
    · exact Or.inl h
    · exact Or.inr ⟨he.symm, lcFlip _ _ hlc⟩
  have htrans : ∀ a ∈ L, ∀ b ∈ L, ∀ c ∈ L, defaultModeCmp env a b ≤ 0 →
      defaultModeCmp env b c ≤ 0 → defaultModeCmp env a c ≤ 0 := by
    intro a ha b hb c hc h1 h2
    have hha := hdef a ha
    have hhb := hdef b hb
    have hhc := hdef c hc
    have h1' := (defaultModeCmp_nonpos env hha.1 hhb.1 hha.2 hhb.2).mp h1
    have h2' := (defaultModeCmp_nonpos env hhb.1 hhc.1 hhb.2 hhc.2).mp h2
    refine (defaultModeCmp_nonpos env hha.1 hhc.1 hha.2 hhc.2).mpr ?_
    rcases h1' with hlt1 | ⟨he1, hlc1⟩
    · rcases h2' with hlt2 | ⟨he2, hlc2⟩
      · exact Or.inl (strLt_trans hlt2 hlt1)
      · exact Or.inl (he2 ▸ hlt1)
    · rcases h2' with hlt2 | ⟨he2, hlc2⟩
      · refine Or.inl ?_
        rw [he1]
        exact hlt2
      · exact Or.inr ⟨he1.trans he2, lcTrans _ _ _ hlc1 hlc2⟩
  have hpw := sortCmp_pairwise (defaultModeCmp env) L hflip htrans
  refine List.Pairwise.imp_of_mem ?_ hpw
  intro a b hma hmb hab
  have hha := hdef a ((mem_sortCmp _ _ _).mp hma)
  have hhb := hdef b ((mem_sortCmp _ _ _).mp hmb)
  exact (defaultModeCmp_nonpos env hha.1 hhb.1 hha.2 hhb.2).mp hab

theorem dateCmpDesc_sorted (L : List MiniReport)
    (harch : ∀ m ∈ L, truthyStr m.lastVisibleActionCreated = true) :
    (sortCmp dateCmpDesc L).Pairwise (fun a b => strLt (tsOf a) (tsOf b) = false) := by
  have hflip : ∀ a ∈ L, ∀ b ∈ L, 0 ≤ dateCmpDesc a b → dateCmpDesc b a ≤ 0 := by
    intro a ha b hb h0
    exact (dateCmpDesc_nonpos (harch b hb) (harch a ha)).mpr
      ((dateCmpDesc_nonneg (harch a ha) (harch b hb)).mp h0)
  have htrans : ∀ a ∈ L, ∀ b ∈ L, ∀ c ∈ L, dateCmpDesc a b ≤ 0 → dateCmpDesc b c ≤ 0 →
      dateCmpDesc a c ≤ 0 := by
    intro a ha b hb c hc h1 h2
    have h1' := (dateCmpDesc_nonpos (harch a ha) (harch b hb)).mp h1
    have h2' := (dateCmpDesc_nonpos (harch b hb) (harch c hc)).mp h2
    refine (dateCmpDesc_nonpos (harch a ha) (harch c hc)).mpr ?_
    cases hac : strLt (tsOf a) (tsOf c) with
    | false => rfl
    | true =>
      cases hcb : strLt (tsOf c) (tsOf b) with
      | true =>
        rw [strLt_trans hac hcb] at h1'
        exact absurd h1' (by simp)
      | false =>
        have he : tsOf b = tsOf c := strLt_eq_of_both_false h2' hcb
        rw [← he] at hac
        rw [hac] at h1'
        exact absurd h1' (by simp)
  have hpw := sortCmp_pairwise dateCmpDesc L hflip htrans
  refine List.Pairwise.imp_of_mem ?_ hpw
  intro a b hma hmb hab
  exact (dateCmpDesc_nonpos (harch a ((mem_sortCmp _ _ _).mp hma))
    (harch b ((mem_sortCmp _ _ _).mp hmb))).mp hab

/-! ### Claim C3 -/

/-- Concrete environment for the claim C3 counterexample: every report is
an archived room, report names are their ids, and the locale comparator is
plain lexicographic string comparison. -/
def envC3x : OrderEnv where
  shouldShowViolations := fun _ => false
  getAllReportErrors := fun _ => []
  genericSmartscanFailureMessage := ""
  isOneTransactionThread := fun _ _ => false
  isSystemChat := fun _ => false
  shouldReportBeInOptionList := fun _ _ _ => true
  doesReportBelongToWorkspace := fun _ => true
  requiresAttentionFromCurrentUser := fun _ => false
  hasValidDraftComment := fun _ => false
  isArchivedRoom := fun _ => true
  getReportName := fun r => r.reportID.getD ""
  localeCompare := fun a b => compareStringDates a b

/-- Claim C3 is false as stated: in most-recent mode two archived reports
with equal `lastVisibleActionCreated` are NOT tie-broken by display name —
the archived comparator (line 189) compares timestamps only, so the stable
sort keeps the input order `["z", "a"]` even though the locale comparator
orders the display name `"a"` strictly before `"z"`. -/
theorem c3_counterexample :
    getOrderedReportIDs envC3x {}
        [some {reportID := some "z", lastVisibleActionCreated := some "2023-01-01"},
         some {reportID := some "a", lastVisibleActionCreated := some "2023-01-01"}]
      = ["z", "a"]
    ∧ envC3x.localeCompare "a" "z" < 0
    ∧ envC3x.getReportName {reportID := some "z", lastVisibleActionCreated := some "2023-01-01"}
        = "z"
    ∧ envC3x.getReportName {reportID := some "a", lastVisibleActionCreated := some "2023-01-01"}
        = "a" := by
  refine ⟨by decide, by decide, by decide, by decide⟩

/-- Claim C3, amended: in most-recent (non-GSD) mode, provided the locale
comparator is a total preorder and every bucket member has a truthy
timestamp (and, for the default bucket, a truthy display name): within the
default bucket any earlier report has a strictly greater timestamp or an
equal timestamp with locale-smaller-or-equal display name (timestamp
descending, tie-broken by display name ascending); within the archived
bucket any earlier report has a greater-or-equal timestamp (timestamp
descending ONLY) — the archived sort is invariant under renaming display
names, and when all archived timestamps are equal it keeps the input order
unchanged, so there is no display-name tie-break there. -/
theorem c3_default_mode_sorting (env : OrderEnv) (cfg : OrderConfig) (rs : List (Option Report))
    (hmode : isInFocusMode cfg = false)
    (lcFlip : ∀ s t, 0 ≤ env.localeCompare s t → env.localeCompare t s ≤ 0)
    (lcTrans : ∀ s t u, env.localeCompare s t ≤ 0 → env.localeCompare t u ≤ 0 →
      env.localeCompare s u ≤ 0)
    (hdef : ∀ m ∈ (bucketsOf env (reportsToDisplay env cfg rs)).nonArchivedReports,
      truthyStr m.lastVisibleActionCreated = true ∧ m.displayName ≠ "")
    (harch : ∀ m ∈ (bucketsOf env (reportsToDisplay env cfg rs)).archivedReports,
      truthyStr m.lastVisibleActionCreated = true) :
    (sortedNonArchived env cfg rs).Pairwise (fun a b =>
        strLt (tsOf b) (tsOf a) = true
        ∨ (tsOf a = tsOf b ∧ env.localeCompare a.displayName b.displayName ≤ 0))
    ∧ (sortedArchived env cfg rs).Pairwise (fun a b => strLt (tsOf a) (tsOf b) = false)
    ∧ (∀ l : List MiniReport, ∀ g : MiniReport → String,
        sortCmp dateCmpDesc (l.map (fun m => ⟨m.reportID, g m, m.lastVisibleActionCreated⟩))
          = (sortCmp dateCmpDesc l).map (fun m => ⟨m.reportID, g m, m.lastVisibleActionCreated⟩))
    ∧ ((∀ a ∈ (bucketsOf env (reportsToDisplay env cfg rs)).archivedReports,
          ∀ b ∈ (bucketsOf env (reportsToDisplay env cfg rs)).archivedReports,
          a.lastVisibleActionCreated = b.lastVisibleActionCreated) →
        sortedArchived env cfg rs
          = (bucketsOf env (reportsToDisplay env cfg rs)).archivedReports) := by
  have hnon : sortedNonArchived env cfg rs
      = sortCmp (defaultModeCmp env)
          (bucketsOf env (reportsToDisplay env cfg rs)).nonArchivedReports := by
    unfold sortedNonArchived
    rw [hmode]
    rfl
  have harc : sortedArchived env cfg rs
      = sortCmp dateCmpDesc (bucketsOf env (reportsToDisplay env cfg rs)).archivedReports := by
    unfold sortedArchived
    rw [hmode]
    rfl
  refine ⟨?_, ?_, ?_, ?_⟩
  · rw [hnon]
    exact defaultModeCmp_sorted env _ lcFlip lcTrans hdef
  · rw [harc]
    exact dateCmpDesc_sorted _ harch
  · intro l g
    exact sortCmp_map dateCmpDesc dateCmpDesc
      (fun m => ⟨m.reportID, g m, m.lastVisibleActionCreated⟩) (fun a b => rfl) l
  · intro hall
    rw [harc]
    refine sortCmp_of_all_nonpos _ _ ?_
    intro a ha b hb
    unfold dateCmpDesc
    split
    · rw [hall a ha b hb, csd_of_both_false (strLt_irrefl _) (strLt_irrefl _)]
    · norm_num

/-- Concrete environment for the claim C3 witness: one archived room, two
plain chats, constant report names, trivial locale comparator. -/
def envC3w : OrderEnv where
  shouldShowViolations := fun _ => false
  getAllReportErrors := fun _ => []
  genericSmartscanFailureMessage := ""
  isOneTransactionThread := fun _ _ => false
  isSystemChat := fun _ => false
  shouldReportBeInOptionList := fun _ _ _ => true
  doesReportBelongToWorkspace := fun _ => true
  requiresAttentionFromCurrentUser := fun _ => false
  hasValidDraftComment := fun _ => false
  isArchivedRoom := fun r => r.reportID == some "arch"
  getReportName := fun _ => "n"
  localeCompare := fun _ _ => 0

/-- Concrete report collection for the claim C3 witness. -/
def rsC3w : List (Option Report) :=
  [some {reportID := some "d1", lastVisibleActionCreated := some "2023-05"},
   some {reportID := some "d2", lastVisibleActionCreated := some "2023-06"},
   some {reportID := some "arch", lastVisibleActionCreated := some "2024"}]

/-- Witness for the amended claim C3 at a concrete most-recent-mode input. -/
theorem c3_default_mode_sorting_witness :
    (sortedNonArchived envC3w {} rsC3w).Pairwise (fun a b =>
        strLt (tsOf b) (tsOf a) = true
        ∨ (tsOf a = tsOf b ∧ envC3w.localeCompare a.displayName b.displayName ≤ 0))
    ∧ (sortedArchived envC3w {} rsC3w).Pairwise (fun a b => strLt (tsOf a) (tsOf b) = false)
    ∧ (∀ l : List MiniReport, ∀ g : MiniReport → String,
        sortCmp dateCmpDesc (l.map (fun m => ⟨m.reportID, g m, m.lastVisibleActionCreated⟩))
          = (sortCmp dateCmpDesc l).map (fun m => ⟨m.reportID, g m, m.lastVisibleActionCreated⟩))
    ∧ ((∀ a ∈ (bucketsOf envC3w (reportsToDisplay envC3w {} rsC3w)).archivedReports,
          ∀ b ∈ (bucketsOf envC3w (reportsToDisplay envC3w {} rsC3w)).archivedReports,
          a.lastVisibleActionCreated = b.lastVisibleActionCreated) →
        sortedArchived envC3w {} rsC3w
          = (bucketsOf envC3w (reportsToDisplay envC3w {} rsC3w)).archivedReports) :=
  c3_default_mode_sorting envC3w {} rsC3w rfl
    (fun _ _ _ => le_refl 0) (fun _ _ _ _ _ => le_refl 0) (by decide) (by decide)

/-! ### Claim C4: focus-mode output does not depend on timestamps -/

/-- Replace a report's `lastVisibleActionCreated`, leaving all other fields
untouched. -/
def setLvac (v : Option String) (r : Report) : Report :=
  { r with lastVisibleActionCreated := v }

theorem setLvac_reportID (v : Option String) (r : Report) :
    (setLvac v r).reportID = r.reportID := rfl

theorem setLvac_parentReportID (v : Option String) (r : Report) :
    (setLvac v r).parentReportID = r.parentReportID := rfl

theorem setLvac_notificationPreference (v : Option String) (r : Report) :
    (setLvac v r).notificationPreference = r.notificationPreference := rfl

theorem setLvac_isPinned (v : Option String) (r : Report) :
    (setLvac v r).isPinned = r.isPinned := rfl

theorem isFocusedReport_setLvac (cfg : OrderConfig) (v : Option String) (r : Report) :
    isFocusedReport cfg (setLvac v r) = isFocusedReport cfg r := rfl

/-- The external collaborators do not read `lastVisibleActionCreated`
(true of the real collaborators, which classify a report by its type,
state and participants). -/
structure IgnoresLvac (env : OrderEnv) : Prop where
  viol : ∀ v r, env.shouldShowViolations (setLvac v r) = env.shouldShowViolations r
  errs : ∀ v r, env.getAllReportErrors (setLvac v r) = env.getAllReportErrors r
  sys : ∀ v r, env.isSystemChat (setLvac v r) = env.isSystemChat r
  inOpt : ∀ v r fm dv, env.shouldReportBeInOptionList (setLvac v r) fm dv
    = env.shouldReportBeInOptionList r fm dv
  belongs : ∀ v r, env.doesReportBelongToWorkspace (setLvac v r)
    = env.doesReportBelongToWorkspace r
  attn : ∀ v r, env.requiresAttentionFromCurrentUser (setLvac v r)
    = env.requiresAttentionFromCurrentUser r
  arch : ∀ v r, env.isArchivedRoom (setLvac v r) = env.isArchivedRoom r
  name : ∀ v r, env.getReportName (setLvac v r) = env.getReportName r

theorem hasErr_setLvac (env : OrderEnv) (hinv : IgnoresLvac env) (v : Option String) (r : Report) :
    hasErrorsOtherThanFailedReceipt env (setLvac v r) = hasErrorsOtherThanFailedReceipt env r := by
  unfold hasErrorsOtherThanFailedReceipt
  rw [hinv.viol, hinv.errs]

theorem filterStep_setLvac (env : OrderEnv) (cfg : OrderConfig) (hinv : IgnoresLvac env)
    (v : Option String) (r : Report) :
    filterStep env cfg (setLvac v r)
      = (filterStep env cfg r).map
          (fun d => ⟨setLvac v d.report, d.hasErrorsOtherThanFailedReceipt⟩) := by
  unfold filterStep
  rw [hasErr_setLvac env hinv v r]
  simp only [setLvac_reportID, setLvac_parentReportID, setLvac_notificationPreference,
    setLvac_isPinned, isFocusedReport_setLvac, hinv.sys, hinv.inOpt, hinv.viol]
  split_ifs <;> rfl

theorem reportsToDisplay_setLvac (env : OrderEnv) (cfg : OrderConfig) (hinv : IgnoresLvac env)
    (g : Report → Option String) (rs : List (Option Report)) :
    reportsToDisplay env cfg (rs.map (Option.map (fun r => setLvac (g r) r)))
      = (reportsToDisplay env cfg rs).map
          (fun d => ⟨setLvac (g d.report) d.report, d.hasErrorsOtherThanFailedReceipt⟩) := by
  have hbase : ∀ rs' : List (Option Report),
      (rs'.map (Option.map (fun r => setLvac (g r) r))).filterMap
          (fun o => o.bind (filterStep env cfg))
        = (rs'.filterMap (fun o => o.bind (filterStep env cfg))).map
            (fun d => ⟨setLvac (g d.report) d.report, d.hasErrorsOtherThanFailedReceipt⟩) := by
    intro rs'
    induction rs' with
    | nil => rfl
    | cons o rest ih =>
      cases o with
      | none => simpa using ih
      | some r =>
        simp only [List.map_cons, List.filterMap_cons, Option.map_some', Option.some_bind]
        rw [filterStep_setLvac env cfg hinv (g r) r]
        cases hfs : filterStep env cfg r with
        | none =>
          simp only [Option.map_none']
          exact ih
        | some d =>
          have hd := filterStep_report env cfg r d hfs
          simp only [Option.map_some', List.map_cons]
          rw [ih, hd]
  unfold reportsToDisplay
  split
  · rw [hbase rs, List.filter_map]
    congr 1
    refine List.filter_congr ?_
    intro d hd
    simp [Function.comp, isFocusedReport_setLvac, hinv.belongs]
  · exact hbase rs

theorem classifySpec_setLvac (env : OrderEnv) (hinv : IgnoresLvac env) (v : Option String)
    (d : DisplayReport) :
    classifySpec env ⟨setLvac v d.report, d.hasErrorsOtherThanFailedReceipt⟩
      = classifySpec env d := by
  unfold classifySpec
  simp only [setLvac_isPinned, setLvac_reportID, hinv.attn, hinv.arch]

theorem nameCmp_miniOf_setLvac (env : OrderEnv) (hinv : IgnoresLvac env)
    (g : Report → Option String) (d e : DisplayReport) :
    nameCmp env (miniOf env ⟨setLvac (g d.report) d.report, d.hasErrorsOtherThanFailedReceipt⟩)
        (miniOf env ⟨setLvac (g e.report) e.report, e.hasErrorsOtherThanFailedReceipt⟩)
      = nameCmp env (miniOf env d) (miniOf env e) := by
  unfold nameCmp miniOf
  simp only [hinv.name]

theorem bucket_sort_ids_setLvac (env : OrderEnv) (hinv : IgnoresLvac env)
    (g : Report → Option String) (D : List DisplayReport) (b : Bucket) :
    (sortCmp (nameCmp env)
        (((D.map (fun d => ⟨setLvac (g d.report) d.report, d.hasErrorsOtherThanFailedReceipt⟩)).filter
            (fun d => classifySpec env d == b)).map (miniOf env))).map idOfMini
      = (sortCmp (nameCmp env)
          ((D.filter (fun d => classifySpec env d == b)).map (miniOf env))).map idOfMini := by
  rw [List.filter_map]
  have hfc : List.filter ((fun d => classifySpec env d == b) ∘
        (fun d => (⟨setLvac (g d.report) d.report, d.hasErrorsOtherThanFailedReceipt⟩ :
          DisplayReport))) D
      = List.filter (fun d => classifySpec env d == b) D := by
    refine List.filter_congr ?_
    intro d hd
    simp [Function.comp, classifySpec_setLvac env hinv]
  rw [hfc, List.map_map]
  rw [sortCmp_map (nameCmp env) (fun d e => nameCmp env (miniOf env d) (miniOf env e))
    (miniOf env ∘ fun d => ⟨setLvac (g d.report) d.report, d.hasErrorsOtherThanFailedReceipt⟩)
    (fun a b => nameCmp_miniOf_setLvac env hinv g a b) _]
  rw [sortCmp_map (nameCmp env) (fun d e => nameCmp env (miniOf env d) (miniOf env e))
    (miniOf env) (fun a b => rfl) _]
  rw [List.map_map, List.map_map]
  rfl

theorem getOrdered_gsd (env : OrderEnv) (cfg : OrderConfig) (rs : List (Option Report))
    (hGSD : isInFocusMode cfg = true) :
    getOrderedReportIDs env cfg rs =
      (sortCmp (nameCmp env) (((reportsToDisplay env cfg rs).filter
          (fun d => classifySpec env d == .pinnedGBR)).map (miniOf env))).map idOfMini
      ++ (sortCmp (nameCmp env) (((reportsToDisplay env cfg rs).filter
          (fun d => classifySpec env d == .errorsB)).map (miniOf env))).map idOfMini
      ++ (sortCmp (nameCmp env) (((reportsToDisplay env cfg rs).filter
          (fun d => classifySpec env d == .drafts)).map (miniOf env))).map idOfMini
      ++ (sortCmp (nameCmp env) (((reportsToDisplay env cfg rs).filter
          (fun d => classifySpec env d == .defaultB)).map (miniOf env))).map idOfMini
      ++ (sortCmp (nameCmp env) (((reportsToDisplay env cfg rs).filter
          (fun d => classifySpec env d == .archivedB)).map (miniOf env))).map idOfMini := by
  unfold getOrderedReportIDs sortedPinned sortedErrors sortedDrafts sortedNonArchived
    sortedArchived
  rw [bucketsOf_eq]
  simp [hGSD, List.map_append]

/-- Claim C4: in focus (GSD) mode the default and archived buckets are
sorted by the locale display-name comparator alone, and consequently the
entire returned identifier sequence is unchanged when every report's
`lastVisibleActionCreated` is replaced arbitrarily (provided the external
collaborators do not read that field, which the real ones do not): the
relative order of reports never depends on their timestamps. -/
theorem c4_focus_mode_name_only (env : OrderEnv) (cfg : OrderConfig) (rs : List (Option Report))
    (g : Report → Option String) (hGSD : isInFocusMode cfg = true) (hinv : IgnoresLvac env) :
    getOrderedReportIDs env cfg (rs.map (Option.map (fun r => setLvac (g r) r)))
      = getOrderedReportIDs env cfg rs
    ∧ sortedNonArchived env cfg rs
        = sortCmp (nameCmp env) (bucketsOf env (reportsToDisplay env cfg rs)).nonArchivedReports
    ∧ sortedArchived env cfg rs
        = sortCmp (nameCmp env) (bucketsOf env (reportsToDisplay env cfg rs)).archivedReports := by
  refine ⟨?_, ?_, ?_⟩
  · rw [getOrdered_gsd env cfg _ hGSD, getOrdered_gsd env cfg rs hGSD,
      reportsToDisplay_setLvac env cfg hinv g rs]
    rw [bucket_sort_ids_setLvac env hinv g _ .pinnedGBR,
      bucket_sort_ids_setLvac env hinv g _ .errorsB,
      bucket_sort_ids_setLvac env hinv g _ .drafts,
      bucket_sort_ids_setLvac env hinv g _ .defaultB,
      bucket_sort_ids_setLvac env hinv g _ .archivedB]
  · simp [sortedNonArchived, hGSD]
  · simp [sortedArchived, hGSD]

/-- Concrete environment for the claim C4 witness: constant collaborators,
so they trivially ignore timestamps. -/
def envC4w : OrderEnv where
  shouldShowViolations := fun _ => false
  getAllReportErrors := fun _ => []
  genericSmartscanFailureMessage := ""
  isOneTransactionThread := fun _ _ => false
  isSystemChat := fun _ => false
  shouldReportBeInOptionList := fun _ _ _ => true
  doesReportBelongToWorkspace := fun _ => true
  requiresAttentionFromCurrentUser := fun _ => false
  hasValidDraftComment := fun _ => false
  isArchivedRoom := fun r => r.reportID == some "arch"
  getReportName := fun r => r.reportID.getD ""
  localeCompare := fun _ _ => 0

/-- Concrete focus-mode configuration for the claim C4 witness. -/
def cfgC4w : OrderConfig :=
  { priorityMode := some "gsd" }

/-- Concrete report collection for the claim C4 witness. -/
def rsC4w : List (Option Report) :=
  [some {reportID := some "b", lastVisibleActionCreated := some "2023-05"},
   some {reportID := some "a", lastVisibleActionCreated := some "2023-06"},
   some {reportID := some "arch", lastVisibleActionCreated := some "2024"}]

/-- Witness for claim C4 at a concrete focus-mode input, wiping every
timestamp. -/
theorem c4_focus_mode_name_only_witness :
    getOrderedReportIDs envC4w cfgC4w (rsC4w.map (Option.map (fun r => setLvac none r)))
      = getOrderedReportIDs envC4w cfgC4w rsC4w
    ∧ sortedNonArchived envC4w cfgC4w rsC4w
        = sortCmp (nameCmp envC4w)
            (bucketsOf envC4w (reportsToDisplay envC4w cfgC4w rsC4w)).nonArchivedReports
    ∧ sortedArchived envC4w cfgC4w rsC4w
        = sortCmp (nameCmp envC4w)
            (bucketsOf envC4w (reportsToDisplay envC4w cfgC4w rsC4w)).archivedReports :=
  c4_focus_mode_name_only envC4w cfgC4w rsC4w (fun _ => none) rfl
    ⟨fun _ _ => rfl, fun _ _ => rfl, fun _ _ => rfl, fun _ _ _ _ => rfl, fun _ _ => rfl,
      fun _ _ => rfl, fun _ _ => rfl, fun _ _ => rfl⟩

/-! ### Claim C8 -/

/-- Claim C8: a report with notification preference `"hidden"` is dropped
by the filter unless it has the forced-visible error flag, is the focused
report, is the system chat, or is pinned; and a pinned hidden non-focused
report that passes the remaining, unrelated filters (not a
one-transaction thread, admitted by `shouldReportBeInOptionList`, no
workspace restriction active) is retained and lands in the pinned/GBR
bucket. -/
theorem c8_hidden_filter (env : OrderEnv) (cfg : OrderConfig) (rs : List (Option Report))
    (r : Report) (hhid : r.notificationPreference = some "hidden") :
    ((hasErrorsOtherThanFailedReceipt env r = false ∧ isFocusedReport cfg r = false
        ∧ env.isSystemChat r = false ∧ r.isPinned = false) →
      filterStep env cfg r = none)
    ∧ ((r.isPinned = true
        ∧ env.isOneTransactionThread r.reportID (r.parentReportID.getD "0") = false
        ∧ env.shouldReportBeInOptionList r (isInFocusMode cfg) (env.shouldShowViolations r) = true
        ∧ some r ∈ rs
        ∧ cfg.currentPolicyID = "" ∧ cfg.policyMemberAccountIDs = []) →
      ∃ flag : Bool, filterStep env cfg r = some ⟨r, flag⟩
        ∧ classifySpec env ⟨r, flag⟩ = .pinnedGBR
        ∧ miniOf env ⟨r, flag⟩
            ∈ (bucketsOf env (reportsToDisplay env cfg rs)).pinnedAndGBRReports) := by
  constructor
  · rintro ⟨he, hf, hs, hp⟩
    unfold filterStep
    by_cases h1 : env.isOneTransactionThread r.reportID (r.parentReportID.getD "0") = true
    · rw [if_pos h1]
    · rw [if_neg h1, if_neg (by simp [he]), if_pos (by simp [hhid, he, hf, hs, hp])]
  · rintro ⟨hp, hott, hopt, hmem, hcp, hcm⟩
    have hmain : ∀ flag : Bool, filterStep env cfg r = some ⟨r, flag⟩ →
        miniOf env ⟨r, flag⟩
          ∈ (bucketsOf env (reportsToDisplay env cfg rs)).pinnedAndGBRReports := by
      intro flag hfs
      rw [bucketsOf_eq]
      refine List.mem_map.mpr ⟨⟨r, flag⟩, ?_, rfl⟩
      refine List.mem_filter.mpr ⟨?_, ?_⟩
      · unfold reportsToDisplay
        rw [if_neg (by simp [hcp, hcm])]
        exact List.mem_filterMap.mpr ⟨some r, hmem, by simp [hfs]⟩
      · simp [classifySpec, hp]
    by_cases he : hasErrorsOtherThanFailedReceipt env r = true
    · have hfs : filterStep env cfg r = some ⟨r, true⟩ := by
        unfold filterStep
        rw [if_neg (by simp [hott]), if_pos he]
      exact ⟨true, hfs, by simp [classifySpec, hp], hmain true hfs⟩
    · have hfs : filterStep env cfg r = some ⟨r, false⟩ := by
        unfold filterStep
        rw [if_neg (by simp [hott]), if_neg he, if_neg (by simp [hp]), if_pos hopt]
      exact ⟨false, hfs, by simp [classifySpec, hp], hmain false hfs⟩

/-- Concrete environment for the claim C8 witness. -/
def envC8w : OrderEnv where
  shouldShowViolations := fun _ => false
  getAllReportErrors := fun _ => []
  genericSmartscanFailureMessage := ""
  isOneTransactionThread := fun _ _ => false
  isSystemChat := fun _ => false
  shouldReportBeInOptionList := fun _ _ _ => true
  doesReportBelongToWorkspace := fun _ => true
  requiresAttentionFromCurrentUser := fun _ => false
  hasValidDraftComment := fun _ => false
  isArchivedRoom := fun _ => false
  getReportName := fun r => r.reportID.getD ""
  localeCompare := fun _ _ => 0

/-- Pinned hidden report for the claim C8 witness. -/
def rC8p : Report :=
  { reportID := some "p", isPinned := true, notificationPreference := some "hidden" }

/-- Unpinned hidden report for the claim C8 witness. -/
def rC8h : Report :=
  { reportID := some "h", notificationPreference := some "hidden" }

/-- Witness for claim C8: the unpinned hidden report is dropped; the pinned
hidden report is retained into the pinned/GBR bucket. -/
theorem c8_hidden_filter_witness :
    filterStep envC8w {} rC8h = none
    ∧ ∃ flag : Bool, filterStep envC8w {} rC8p = some ⟨rC8p, flag⟩
        ∧ classifySpec envC8w ⟨rC8p, flag⟩ = .pinnedGBR
        ∧ miniOf envC8w ⟨rC8p, flag⟩
            ∈ (bucketsOf envC8w (reportsToDisplay envC8w {} [some rC8p, some rC8h])).pinnedAndGBRReports :=
  ⟨(c8_hidden_filter envC8w {} [some rC8p, some rC8h] rC8h rfl).1 (by decide),
   (c8_hidden_filter envC8w {} [some rC8p, some rC8h] rC8p rfl).2
     ⟨rfl, rfl, rfl, by decide, rfl, rfl⟩⟩

/-! ### Claims about the option projector -/

/-- Claim C6: `getOptionData` returns a defined record iff both the report
and the personal-details table are present; an absent argument yields the
explicit empty signal (the function is total, so nothing is raised). -/
theorem c6_defined_iff_present (env : OptionEnv) (a : OptionArgs) :
    (getOptionData env a).isSome ↔ (a.report.isSome ∧ a.personalDetails.isSome) := by
  unfold getOptionData
  cases hr : a.report with
  | none => simp
  | some r =>
    cases hp : a.personalDetails with
    | none => simp
    | some pd => simp

theorem getOptionData_brickRoadIndicator (env : OptionEnv) (a : OptionArgs) (r : Report)
    (pd : PersonalDetailsList) (hr : a.report = some r) (hp : a.personalDetails = some pd) :
    (getOptionData env a).map (fun o => o.brickRoadIndicator)
      = some (if env.isJoinRequestInAdminRoom r then some "info"
          else if !(env.getAllReportErrors r a.reportActions).isEmpty || a.hasViolations
            then some "error" else some "") := by
  unfold getOptionData
  rw [hr, hp]
  simp only [Option.map_some']
  cases hj : env.isJoinRequestInAdminRoom r <;>
    cases he : (env.getAllReportErrors r a.reportActions).isEmpty <;>
      cases hv : a.hasViolations <;>
        simp [hj, he, hv, apply_ite (fun o : OptionData => o.brickRoadIndicator)]

theorem getOptionData_isUnread (env : OptionEnv) (a : OptionArgs) (r : Report)
    (pd : PersonalDetailsList) (hr : a.report = some r) (hp : a.personalDetails = some pd) :
    (getOptionData env a).map (fun o => o.isUnread)
      = some (if env.isJoinRequestInAdminRoom r then true
          else env.isUnread r && truthyNat r.lastActorAccountID) := by
  unfold getOptionData
  rw [hr, hp]
  simp only [Option.map_some']
  cases hj : env.isJoinRequestInAdminRoom r <;>
    simp [hj, apply_ite (fun o : OptionData => o.isUnread)]

theorem getOptionData_tooltips (env : OptionEnv) (a : OptionArgs) (r : Report)
    (pd : PersonalDetailsList) (hr : a.report = some r) (hp : a.personalDetails = some pd) :
    (getOptionData env a).map (fun o => o.displayNamesWithTooltips)
      = some (getDisplayNamesWithTooltips
          ((env.getPersonalDetailsForAccountIDs
              (env.getParticipantsAccountIDsForDisplay r false) pd).take 10)
          ((env.getPersonalDetailsForAccountIDs
              (env.getParticipantsAccountIDsForDisplay r false) pd).length > 1
            || env.isChatRoom r || env.isPolicyExpenseChat r || env.isExpenseReport r)
          (env.isSelfDM r)) := by
  unfold getOptionData
  rw [hr, hp]
  simp only [Option.map_some']
  simp [apply_ite (fun o : OptionData => o.displayNamesWithTooltips)]

/-- Concrete environment for claim C7: the report's single error is exactly
the benign receipt-scan-failure message. -/
def envC7x : OptionEnv where
  getAllReportErrors := fun _ _ => [some "scanfail"]
  genericSmartscanFailureMessage := "scanfail"
  getParticipantsAccountIDsForDisplay := fun _ _ => []
  getPersonalDetailsForAccountIDs := fun _ _ => []
  isChatThread := fun _ => false
  isChatRoom := fun _ => false
  isTaskReport := fun _ => false
  isInvoiceReport := fun _ => false
  isArchivedRoom := fun _ => false
  isPolicyExpenseChat := fun _ => false
  isExpenseRequest := fun _ => false
  isMoneyRequestReport := fun _ => false
  shouldReportShowSubscript := fun _ => false
  isUnread := fun _ => false
  isUnreadWithMention := fun _ => false
  canUserPerformWriteAction := fun _ => true
  isSelfDM := fun _ => false
  isExpenseReport := fun _ => false
  isJoinRequestInAdminRoom := fun _ => false
  isIOUOwnedByCurrentUser := fun _ => false
  getReportParticipantsTitle := fun _ => ""
  getChatRoomSubtitle := fun _ => none
  getReportName := fun _ _ => ""
  getIcons := fun _ _ _ _ _ _ => []
  getSearchText := fun _ _ _ _ _ => ""
  computeAlternateText := fun _ _ _ _ => none

/-- Concrete arguments for claim C7: report and details present, no
violations. -/
def argsC7x : OptionArgs :=
  { report := some {}, reportActions := none, personalDetails := some [], hasViolations := false }

/-- Claim C7 is false as stated: a report whose only error is exactly the
benign receipt-scan-failure message (and with no violations, not a join
request) still gets `brickRoadIndicator = "error"`, because line 267
counts every key of `allReportErrors` without excluding the benign
message. -/
theorem c7_counterexample :
    (getOptionData envC7x argsC7x).map (fun o => o.brickRoadIndicator) = some (some "error")
    ∧ envC7x.getAllReportErrors {} none = [some envC7x.genericSmartscanFailureMessage]
    ∧ argsC7x.hasViolations = false
    ∧ envC7x.isJoinRequestInAdminRoom {} = false :=
  ⟨by decide, by decide, by decide, by decide⟩

/-- Claim C7, amended: for a present report and personal-details table,
`brickRoadIndicator` is `"error"` iff the report has at least one error of
ANY kind (the benign receipt-scan-failure message included) or the
violations flag is set, and the empty indicator otherwise — except that a
join request in an admin room gets the `"info"` indicator. -/
theorem c7_brick_road_indicator (env : OptionEnv) (a : OptionArgs) (r : Report)
    (pd : PersonalDetailsList) (hr : a.report = some r) (hp : a.personalDetails = some pd) :
    ∃ o, getOptionData env a = some o
      ∧ (env.isJoinRequestInAdminRoom r = false →
          o.brickRoadIndicator
            = (if env.getAllReportErrors r a.reportActions ≠ [] ∨ a.hasViolations = true
                then some "error" else some ""))
      ∧ (env.isJoinRequestInAdminRoom r = true → o.brickRoadIndicator = some "info") := by
  have h := getOptionData_brickRoadIndicator env a r pd hr hp
  cases hgo : getOptionData env a with
  | none =>
    rw [hgo] at h
    exact absurd h (by simp)
  | some o =>
    rw [hgo] at h
    simp only [Option.map_some', Option.some.injEq] at h
    refine ⟨o, rfl, ?_, ?_⟩
    · intro hj
      rw [hj] at h
      simp only [Bool.false_eq_true, if_false] at h
      rw [h]
      by_cases hc : env.getAllReportErrors r a.reportActions ≠ [] ∨ a.hasViolations = true
      · rw [if_pos hc]
        have hb : (!(env.getAllReportErrors r a.reportActions).isEmpty || a.hasViolations)
            = true := by
          rcases hc with h1 | h2
          · cases hl : env.getAllReportErrors r a.reportActions with
            | nil => exact absurd hl h1
            | cons e es => simp [hl]
          · simp [h2]
        rw [hb]
        rfl
      · rw [if_neg hc]
        push_neg at hc
        obtain ⟨h1, h2⟩ := hc
        have h2' : a.hasViolations = false := by
          cases hvb : a.hasViolations
          · rfl
          · exact absurd hvb h2
        simp [h1, h2']
    · intro hj
      rw [hj] at h
      simpa using h

/-- Witness for the amended claim C7 at the concrete input where the only
error is the benign message: the indicator is still `"error"`. -/
theorem c7_brick_road_indicator_witness :
    ∃ o, getOptionData envC7x argsC7x = some o
      ∧ (envC7x.isJoinRequestInAdminRoom {} = false →
          o.brickRoadIndicator
            = (if envC7x.getAllReportErrors {} argsC7x.reportActions ≠ []
                  ∨ argsC7x.hasViolations = true
                then some "error" else some ""))
      ∧ (envC7x.isJoinRequestInAdminRoom {} = true → o.brickRoadIndicator = some "info") :=
  c7_brick_road_indicator envC7x argsC7x {} [] rfl rfl

/-- Claim C9: the `displayNamesWithTooltips` list attached to the result is
derived from at most the first 10 entries of the participant
personal-details list (`slice(0, 10)`, line 315), so its length never
exceeds 10. -/
theorem c9_tooltips_capped (env : OptionEnv) (a : OptionArgs) (r : Report)
    (pd : PersonalDetailsList) (hr : a.report = some r) (hp : a.personalDetails = some pd) :
    ∃ o, getOptionData env a = some o
      ∧ o.displayNamesWithTooltips
          = getDisplayNamesWithTooltips
              ((env.getPersonalDetailsForAccountIDs
                  (env.getParticipantsAccountIDsForDisplay r false) pd).take 10)
              ((env.getPersonalDetailsForAccountIDs
                  (env.getParticipantsAccountIDsForDisplay r false) pd).length > 1
                || env.isChatRoom r || env.isPolicyExpenseChat r || env.isExpenseReport r)
              (env.isSelfDM r)
      ∧ o.displayNamesWithTooltips.length ≤ 10 := by
  have h := getOptionData_tooltips env a r pd hr hp
  cases hgo : getOptionData env a with
  | none =>
    rw [hgo] at h
    exact absurd h (by simp)
  | some o =>
    rw [hgo] at h
    simp only [Option.map_some', Option.some.injEq] at h
    refine ⟨o, rfl, h, ?_⟩
    rw [h]
    unfold getDisplayNamesWithTooltips
    simp only [List.length_map, List.length_take]
    omega

/-- Concrete environment for the claim C9 witness: twelve resolvable
participants. -/
def envC9w : OptionEnv where
  getAllReportErrors := fun _ _ => []
  genericSmartscanFailureMessage := ""
  getParticipantsAccountIDsForDisplay := fun _ _ => []
  getPersonalDetailsForAccountIDs := fun _ _ => List.replicate 12 {}
  isChatThread := fun _ => false
  isChatRoom := fun _ => false
  isTaskReport := fun _ => false
  isInvoiceReport := fun _ => false
  isArchivedRoom := fun _ => false
  isPolicyExpenseChat := fun _ => false
  isExpenseRequest := fun _ => false
  isMoneyRequestReport := fun _ => false
  shouldReportShowSubscript := fun _ => false
  isUnread := fun _ => false
  isUnreadWithMention := fun _ => false
  canUserPerformWriteAction := fun _ => true
  isSelfDM := fun _ => false
  isExpenseReport := fun _ => false
  isJoinRequestInAdminRoom := fun _ => false
  isIOUOwnedByCurrentUser := fun _ => false
  getReportParticipantsTitle := fun _ => ""
  getChatRoomSubtitle := fun _ => none
  getReportName := fun _ _ => ""
  getIcons := fun _ _ _ _ _ _ => []
  getSearchText := fun _ _ _ _ _ => ""
  computeAlternateText := fun _ _ _ _ => none

/-- Witness for claim C9: with twelve participants the tooltip list is
still capped at 10. -/
theorem c9_tooltips_capped_witness :
    ∃ o, getOptionData envC9w
        { report := some {}, reportActions := none, personalDetails := some [],
          hasViolations := false } = some o
      ∧ o.displayNamesWithTooltips
          = getDisplayNamesWithTooltips
              ((envC9w.getPersonalDetailsForAccountIDs
                  (envC9w.getParticipantsAccountIDsForDisplay {} false) []).take 10)
              ((envC9w.getPersonalDetailsForAccountIDs
                  (envC9w.getParticipantsAccountIDsForDisplay {} false) []).length > 1
                || envC9w.isChatRoom {} || envC9w.isPolicyExpenseChat {}
                || envC9w.isExpenseReport {})
              (envC9w.isSelfDM {})
      ∧ o.displayNamesWithTooltips.length ≤ 10 :=
  c9_tooltips_capped envC9w
    { report := some {}, reportActions := none, personalDetails := some [],
      hasViolations := false } {} [] rfl rfl

/-- Claim C10: for a report that is not a join request in an admin room,
the result's `isUnread` is the conjunction of the external unread
predicate with the truthiness of `lastActorAccountID` (line 289): it can
be `true` only when `lastActorAccountID` is set and nonzero, and an absent
`lastActorAccountID` forces `isUnread = false` even when the unread
predicate holds. -/
theorem c10_isUnread_requires_lastActor (env : OptionEnv) (a : OptionArgs) (r : Report)
    (pd : PersonalDetailsList) (hr : a.report = some r) (hp : a.personalDetails = some pd)
    (hj : env.isJoinRequestInAdminRoom r = false) :
    ∃ o, getOptionData env a = some o
      ∧ o.isUnread = (env.isUnread r && truthyNat r.lastActorAccountID)
      ∧ (o.isUnread = true → truthyNat r.lastActorAccountID = true)
      ∧ (r.lastActorAccountID = none → o.isUnread = false) := by
  have h := getOptionData_isUnread env a r pd hr hp
  cases hgo : getOptionData env a with
  | none =>
    rw [hgo] at h
    exact absurd h (by simp)
  | some o =>
    rw [hgo] at h
    simp only [Option.map_some', Option.some.injEq, hj, Bool.false_eq_true, if_false] at h
    refine ⟨o, rfl, h, ?_, ?_⟩
    · intro hu
      rw [hu] at h
      exact ((Bool.and_eq_true _ _).mp h.symm).2
    · intro hn
      rw [h, hn]
      simp [truthyNat]

/-- Concrete environment for the claim C10 witness: the unread predicate
holds for every report. -/
def envC10w : OptionEnv where
  getAllReportErrors := fun _ _ => []
  genericSmartscanFailureMessage := ""
  getParticipantsAccountIDsForDisplay := fun _ _ => []
  getPersonalDetailsForAccountIDs := fun _ _ => []
  isChatThread := fun _ => false
  isChatRoom := fun _ => false
  isTaskReport := fun _ => false
  isInvoiceReport := fun _ => false
  isArchivedRoom := fun _ => false
  isPolicyExpenseChat := fun _ => false
  isExpenseRequest := fun _ => false
  isMoneyRequestReport := fun _ => false
  shouldReportShowSubscript := fun _ => false
  isUnread := fun _ => true
  isUnreadWithMention := fun _ => false
  canUserPerformWriteAction := fun _ => true
  isSelfDM := fun _ => false
  isExpenseReport := fun _ => false
  isJoinRequestInAdminRoom := fun _ => false
  isIOUOwnedByCurrentUser := fun _ => false
  getReportParticipantsTitle := fun _ => ""
  getChatRoomSubtitle := fun _ => none
  getReportName := fun _ _ => ""
  getIcons := fun _ _ _ _ _ _ => []
  getSearchText := fun _ _ _ _ _ => ""
  computeAlternateText := fun _ _ _ _ => none

/-- Witness for claim C10 at a report whose unread predicate holds but
whose `lastActorAccountID` is absent. -/
theorem c10_isUnread_requires_lastActor_witness :
    ∃ o, getOptionData envC10w
        { report := some {}, reportActions := none, personalDetails := some [],
          hasViolations := false } = some o
      ∧ o.isUnread = (envC10w.isUnread {} && truthyNat (Report.lastActorAccountID {}))
      ∧ (o.isUnread = true → truthyNat (Report.lastActorAccountID {}) = true)
      ∧ (Report.lastActorAccountID {} = none → o.isUnread = false) :=
  c10_isUnread_requires_lastActor envC10w
    { report := some {}, reportActions := none, personalDetails := some [],
      hasViolations := false } {} [] rfl rfl rfl
